import Mathlib

/-!
# The fault coordinator of umap: `FillManager::FillMgr`

A shallow embedding of the coordinator loop of `src/umap/FillManager.hpp`
(lines 83-150).  The coordinator is a single thread; it is embedded as a
state-passing function over

* the page buffer it works on (`Buffer`), and
* the list of calls it has made so far, oldest first (`MgrState.trace`).

Pointers are natural numbers.  A `char*` page address and a `Store*` are
`Nat` with `0` for `nullptr`; a `PageDescriptor*` is the number of the
descriptor in the buffer's descriptor storage, and `Option` gives the
`nullptr` case.

What the other threads (fill workers, flush workers) do to the buffer while
the coordinator does not hold the buffer lock is a parameter `env` of the
embedding: `env t b` is the buffer they leave behind when the coordinator
released the lock at time `t` (the length of its trace) on buffer `b`.

The debug logging of the loop and its event counter have no effect on the
buffer or on the work queues and are left out.  `send_work` is recorded as a
call; the work queues themselves belong to the workers.
-/

namespace Umap

/-! ## Data model -/

/-- Life-cycle state of a page descriptor (`PageDescriptor::State`). -/
inductive State where
  | FREE
  | FILLING
  | PRESENT
  | UPDATING
  | LEAVING
deriving DecidableEq

/-- Modelled from the spec: the page descriptor (`PageDescriptor.hpp` is not
part of the source tree).  Section 3 of the spec gives its four fields. -/
structure PageDescriptor where
  page_addr : Nat
  state : State
  dirty : Bool
  deferred : Bool
deriving DecidableEq

/-- Modelled from the spec: `pd->page_is_dirty()`, the `dirty` field. -/
def PageDescriptor.page_is_dirty (pd : PageDescriptor) : Bool :=
  pd.dirty

/-- Modelled from the spec: `pd->mark_page_dirty()` sets the `dirty` field
("sets `pd.dirty`"). -/
def PageDescriptor.mark_page_dirty (pd : PageDescriptor) : PageDescriptor :=
  { pd with dirty := true }

/-- Modelled from the spec: `pd->set_state_filling()` ("sets state to
FILLING"). -/
def PageDescriptor.set_state_filling (pd : PageDescriptor) : PageDescriptor :=
  { pd with state := State.FILLING }

/-- Modelled from the spec: `pd->set_state_updating()` ("transitions to
UPDATING"). -/
def PageDescriptor.set_state_updating (pd : PageDescriptor) : PageDescriptor :=
  { pd with state := State.UPDATING }

/-- Modelled from the spec: `pd->set_state_present()`, the state change of the
spec's `mark_present` and `mark_writable`. -/
def PageDescriptor.set_state_present (pd : PageDescriptor) : PageDescriptor :=
  { pd with state := State.PRESENT }

/-- A fault event as delivered by `Uffd::get_page_events` (the two fields
`FillMgr` reads). -/
structure PageEvent where
  aligned_page_address : Nat
  is_write_fault : Bool
deriving DecidableEq

/-- The one tag of `WorkItem::WorkType` that `FillMgr` uses. -/
inductive WorkType where
  | THRESHOLD
deriving DecidableEq

/-- A work item, a tag plus two pointers.  `FillMgr` never assigns the tag of
the items it sends to the fill workers: `type = none` stands for the tag of a
default-constructed `WorkItem`. -/
structure WorkItem where
  type : Option WorkType
  page_desc : Option Nat
  store : Nat
deriving DecidableEq

/-- Modelled from the spec: the page buffer (`Buffer.hpp` is not part of the
source tree).  `descs` is the descriptor storage, `present_index` the map from
page address to the descriptor holding the page, `free_list` the descriptors
available for allocation and `present_queue` the eviction queue. -/
structure Buffer where
  descs : Nat → PageDescriptor
  present_index : Nat → Option Nat
  free_list : List Nat
  present_queue : List Nat
  low_watermark : Nat
  high_watermark : Nat

/-- Apply a descriptor method through a descriptor pointer. -/
def Buffer.modify (b : Buffer) (pd : Nat) (f : PageDescriptor → PageDescriptor) : Buffer :=
  { b with descs := fun p => if p = pd then f (b.descs pd) else b.descs p }

/-- Modelled from the spec: `Buffer::page_already_present`, the spec's
`lookup(page_addr)`: "returns the descriptor in `present_index` for
`page_addr` if any". -/
def Buffer.page_already_present (b : Buffer) (page_addr : Nat) : Option Nat :=
  b.present_index page_addr

/-- Modelled from the spec: `Buffer::flush_threshold_reached`, the spec's
`high_reached()`: `fill_level() ≥ high_watermark` with `fill_level()` the
length of `present_queue`. -/
def Buffer.flush_threshold_reached (b : Buffer) : Bool :=
  decide (b.high_watermark ≤ b.present_queue.length)

/-- Modelled from the spec: `Buffer::get_page_descriptor`, the first part of
the spec's `allocate(page_addr)`: "reserves a FREE slot, sets its
`page_addr`".  With an empty free list the caller blocks on the condition
variable; that is the result `none`. -/
def Buffer.get_page_descriptor (b : Buffer) (page_addr : Nat) : Option (Nat × Buffer) :=
  match b.free_list with
  | [] => none
  | pd :: rest =>
    some (pd, { (b.modify pd (fun d => { d with page_addr := page_addr })) with free_list := rest })

/-- Modelled from the spec: `Buffer::mark_page_present`, the last part of the
spec's `allocate(page_addr)`: "inserts into `present_index`".  The spec's
`allocate` stands for the three calls of lines 133-137 of `FillMgr`
(`get_page_descriptor`, `set_state_filling`, `mark_page_present`); this call
is what makes `page_already_present` find the page from then on.  The step
to state PRESENT and into `present_queue`, the spec's `mark_present`, is
`Buffer.mark_present`. -/
def Buffer.mark_page_present (b : Buffer) (pd : Nat) : Buffer :=
  { b with present_index := fun a => if a = (b.descs pd).page_addr then some pd else b.present_index a }

/-- The calls of the coordinator thread that the embedding records. -/
inductive Call where
  | get_page_events (pe : List PageEvent)
  | lock
  | unlock
  | flush_threshold_reached (result : Bool)
  | flush_send_work (w : WorkItem)
  | page_already_present (page_addr : Nat) (result : Option Nat)
  | get_page_descriptor (page_addr : Nat) (result : Option Nat)
  | set_state_filling (pd : Nat)
  | mark_page_present (pd : Nat)
  | mark_page_dirty (pd : Nat)
  | set_state_updating (pd : Nat)
  | fill_send_work (w : WorkItem)
deriving DecidableEq

/-- State of the coordinator thread: the buffer, the calls made so far (oldest
first), and whether the thread sits in the wait of `get_page_descriptor`
(empty free list).  A blocked coordinator makes no further call. -/
structure MgrState where
  buffer : Buffer
  trace : List Call
  blocked : Bool

/-- Record one call. -/
def MgrState.call (s : MgrState) (c : Call) : MgrState :=
  { s with trace := s.trace ++ [c] }

/-- The THRESHOLD work item of lines 107-111. -/
def thresholdItem : WorkItem :=
  { type := some WorkType.THRESHOLD, page_desc := none, store := 0 }

/-! ## The loop body -/

/-- Lines 106-115: if the buffer reports the flush threshold reached, send a
THRESHOLD item to the flush manager, then unlock and lock the buffer; the
other threads act on the buffer in between. -/
def threshold_yield (env : Nat → Buffer → Buffer) (s : MgrState) : MgrState :=
  if s.buffer.flush_threshold_reached = true then
    let s1 := s.call (Call.flush_threshold_reached true)
    let s2 := s1.call (Call.flush_send_work thresholdItem)
    let s3 := s2.call Call.unlock
    let s4 := { s3 with buffer := env s3.trace.length s3.buffer }
    s4.call Call.lock
  else
    s.call (Call.flush_threshold_reached false)

/-- Lines 117-145: look the page up and classify the event. -/
def classify (m_store : Nat) (s : MgrState) (event : PageEvent) : MgrState :=
  let r := s.buffer.page_already_present event.aligned_page_address
  let s0 := s.call (Call.page_already_present event.aligned_page_address r)
  match r with
  | some pd =>
    if (event.is_write_fault && (s0.buffer.descs pd).page_is_dirty == false) = true then
      let work : WorkItem := { type := none, page_desc := some pd, store := 0 }
      let s1 := { s0 with buffer := s0.buffer.modify pd PageDescriptor.mark_page_dirty }.call
        (Call.mark_page_dirty pd)
      let s2 := { s1 with buffer := s1.buffer.modify pd PageDescriptor.set_state_updating }.call
        (Call.set_state_updating pd)
      s2.call (Call.fill_send_work work)
    else
      s0
  | none =>
    match s0.buffer.get_page_descriptor event.aligned_page_address with
    | none =>
      { s0.call (Call.get_page_descriptor event.aligned_page_address none) with blocked := true }
    | some (pd, b) =>
      let s1 := { s0 with buffer := b }.call
        (Call.get_page_descriptor event.aligned_page_address (some pd))
      let work : WorkItem := { type := none, page_desc := some pd, store := m_store }
      let s2 := { s1 with buffer := s1.buffer.modify pd PageDescriptor.set_state_filling }.call
        (Call.set_state_filling pd)
      let s3 := { s2 with buffer := s2.buffer.mark_page_present pd }.call
        (Call.mark_page_present pd)
      let s4 :=
        if event.is_write_fault = true then
          { s3 with buffer := s3.buffer.modify pd PageDescriptor.mark_page_dirty }.call
            (Call.mark_page_dirty pd)
        else s3
      s4.call (Call.fill_send_work work)

/-- One iteration of the `for` loop of lines 104-146. -/
def processEvent (env : Nat → Buffer → Buffer) (m_store : Nat) (s : MgrState)
    (event : PageEvent) : MgrState :=
  if s.blocked = true then s else classify m_store (threshold_yield env s) event

/-- The `for` loop of lines 104-146 over the events of a batch. -/
def processEvents (env : Nat → Buffer → Buffer) (m_store : Nat) (s : MgrState)
    (pe : List PageEvent) : MgrState :=
  pe.foldl (processEvent env m_store) s

/-- Lines 133-145 when the wait of `get_page_descriptor` ends.  `s` is the
coordinator waiting in `get_page_descriptor` for a descriptor for the page of
`event`, and `b` is the buffer as the other threads have left it when they
wake the coordinator.  With a free descriptor in `b` the call returns it and
the coordinator goes on at line 134; without one the wait goes on. -/
def afterWait (m_store : Nat) (s : MgrState) (event : PageEvent) (b : Buffer) : MgrState :=
  match b.get_page_descriptor event.aligned_page_address with
  | none => { s with buffer := b }
  | some (pd, b1) =>
    let s1 := { s with buffer := b1, blocked := false }.call
      (Call.get_page_descriptor event.aligned_page_address (some pd))
    let work : WorkItem := { type := none, page_desc := some pd, store := m_store }
    let s2 := { s1 with buffer := s1.buffer.modify pd PageDescriptor.set_state_filling }.call
      (Call.set_state_filling pd)
    let s3 := { s2 with buffer := s2.buffer.mark_page_present pd }.call
      (Call.mark_page_present pd)
    let s4 :=
      if event.is_write_fault = true then
        { s3 with buffer := s3.buffer.modify pd PageDescriptor.mark_page_dirty }.call
          (Call.mark_page_dirty pd)
      else s3
    s4.call (Call.fill_send_work work)

/-- Lines 101-148: lock the buffer, run the loop over the batch, unlock. -/
def processBatch (env : Nat → Buffer → Buffer) (m_store : Nat) (s : MgrState)
    (pe : List PageEvent) : MgrState :=
  let s1 := processEvents env m_store (s.call Call.lock) pe
  if s1.blocked = true then s1 else s1.call Call.unlock

/-- The shutdown test of line 96. -/
def isSentinel (e : PageEvent) : Bool :=
  e.aligned_page_address == 0 && e.is_write_fault == false

/-- How a run of the coordinator over a finite stream of batches ends. -/
inductive Outcome where
  | exited
  | waiting
  | blocked
deriving DecidableEq

/-- Line 91: `get_page_events` returns the batch `pe`; while the coordinator
waited for it the other threads acted on the buffer. -/
def getEvents (env : Nat → Buffer → Buffer) (s : MgrState) (pe : List PageEvent) : MgrState :=
  { s with buffer := env s.trace.length s.buffer }.call (Call.get_page_events pe)

/-- The `while (1)` loop of lines 90-149, run on the batches that
`get_page_events` returns one after the other.  When the batches are used up
the coordinator waits in `get_page_events` (`Outcome.waiting`). -/
def FillMgr (env : Nat → Buffer → Buffer) (m_store : Nat) :
    List (List PageEvent) → MgrState → Outcome × MgrState
  | [], s => (Outcome.waiting, s)
  | pe :: rest, s =>
    let s1 := getEvents env s pe
    match pe with
    | [] => FillMgr env m_store rest s1
    | e0 :: _ =>
      if isSentinel e0 = true then (Outcome.exited, s1)
      else
        let s2 := processBatch env m_store s1 pe
        if s2.blocked = true then (Outcome.blocked, s2) else FillMgr env m_store rest s2

/-- The work items sent to the fill workers, in order. -/
def fillSent : List Call → List WorkItem
  | [] => []
  | Call.fill_send_work w :: cs => w :: fillSent cs
  | _ :: cs => fillSent cs

/-- The work items sent to the flush manager, in order. -/
def flushSent : List Call → List WorkItem
  | [] => []
  | Call.flush_send_work w :: cs => w :: flushSent cs
  | _ :: cs => flushSent cs

/-- A batch that makes the coordinator leave its loop: it is not empty and its
first event passes the test of line 96. -/
def isShutdownBatch : List PageEvent → Bool
  | [] => false
  | e0 :: _ => isSentinel e0

/-- Modelled from the spec: the buffer operation `mark_present(pd)`
(`Buffer.hpp` is not part of the source tree): "transitions `pd.state` from
FILLING to PRESENT, appends to `present_queue`, broadcasts on the condition
variable". -/
def Buffer.mark_present (b : Buffer) (pd : Nat) : Buffer :=
  { (b.modify pd PageDescriptor.set_state_present) with
    present_queue := b.present_queue ++ [pd] }

/-! ## Lock discipline -/

/-- No interference: the other threads leave the buffer as it is. -/
def quietEnv : Nat → Buffer → Buffer :=
  fun _ b => b

/-- A buffer of four descriptors (low watermark 1, high watermark 3): page
4096 is resident and clean in descriptor 0, page 8192 is resident and dirty in
descriptor 1, descriptors 2 and 3 are free. -/
def sampleBuffer : Buffer :=
  { descs := fun p =>
      if p = 0 then { page_addr := 4096, state := State.PRESENT, dirty := false, deferred := false }
      else if p = 1 then { page_addr := 8192, state := State.PRESENT, dirty := true, deferred := false }
      else { page_addr := 0, state := State.FREE, dirty := false, deferred := false }
    present_index := fun a => if a = 4096 then some 0 else if a = 8192 then some 1 else none
    free_list := [2, 3]
    present_queue := [0, 1]
    low_watermark := 1
    high_watermark := 3 }

/-- The coordinator before its first call, on `sampleBuffer`. -/
def sampleState : MgrState :=
  { buffer := sampleBuffer, trace := [], blocked := false }

/-- The buffer `sampleBuffer` with its free list used up, after the flush
workers have evicted page 8192 and freed descriptor 1. -/
def evictedBuffer : Buffer :=
  { descs := fun p =>
      if p = 0 then { page_addr := 4096, state := State.PRESENT, dirty := false, deferred := false }
      else { page_addr := 0, state := State.FREE, dirty := false, deferred := false }
    present_index := fun a => if a = 4096 then some 0 else none
    free_list := [1]
    present_queue := [0]
    low_watermark := 1
    high_watermark := 3 }

/-- The coordinator before its first call, on `sampleBuffer` with its free list
used up. -/
def fullState : MgrState :=
  { buffer := { sampleBuffer with free_list := [] }, trace := [], blocked := false }

/-! ## The RPC server and its pool of remote memory objects

`src/umap/store/rpc_server.cpp`.  The pool is the file-static
`std::map<const char*, RemoteMemoryObject> remote_memory_pool` of line 20.  The
key type is a pointer, so the map orders and compares its keys by address,
not by the characters stored there.  The calls into the margo library are
taken to succeed, and `assert` is taken to be active: a failed assertion ends
the process. -/

/-- The modulus of `size_t` arithmetic. -/
def SIZE_T_MOD : Nat :=
  2 ^ 64

/-- A `const char*` argument: the address the pointer holds and the characters
found at that address when the call is made. -/
structure CString where
  addr : Nat
  chars : String
deriving DecidableEq

/-- An entry of the pool, built by `RemoteMemoryObject(ptr, rsize)`: the base
pointer of the object (`0` for `NULL`) and its size in bytes. -/
structure RemoteMemoryObject where
  ptr : Nat
  rsize : Nat
deriving DecidableEq

/-- The state of the server process that the functions of the claims touch:
the pool (entries in the order of the map, ascending key address), the two
client counters and the number of calls of `server_fini` so far. -/
structure ServerState where
  remote_memory_pool : List (CString × RemoteMemoryObject)
  num_completed_clients : Int
  num_clients : Int
  server_fini_calls : Nat

/-- `remote_memory_pool.find(id)`: the entry whose key is the address `id`
holds, if there is one. -/
def pool_find (pool : List (CString × RemoteMemoryObject)) (id : CString) :
    Option (CString × RemoteMemoryObject) :=
  pool.find? (fun e => e.1.addr == id.addr)

/-- `remote_memory_pool.emplace(id, obj)`: the entry goes to its place in the
order of key addresses; a pool that has the key already stays as it is. -/
def pool_emplace (pool : List (CString × RemoteMemoryObject)) (id : CString)
    (obj : RemoteMemoryObject) : List (CString × RemoteMemoryObject) :=
  match pool with
  | [] => [(id, obj)]
  | e :: rest =>
    if id.addr < e.1.addr then (id, obj) :: e :: rest
    else if id.addr = e.1.addr then e :: rest
    else e :: pool_emplace rest id obj

/-- `remote_memory_pool.erase(id)`: the entry whose key is the address `id`
holds is removed. -/
def pool_erase (pool : List (CString × RemoteMemoryObject)) (id : CString) :
    List (CString × RemoteMemoryObject) :=
  pool.filter (fun e => e.1.addr != id.addr)

/-- `remote_memory_pool[id]`: the object under the key, after inserting a
value-initialised object if the key is not there. -/
def pool_index (pool : List (CString × RemoteMemoryObject)) (id : CString) :
    RemoteMemoryObject × List (CString × RemoteMemoryObject) :=
  match pool_find pool id with
  | some e => (e.2, pool)
  | none => ({ ptr := 0, rsize := 0 }, pool_emplace pool id { ptr := 0, rsize := 0 })

/-- The invariant of the map: key addresses strictly ascending. -/
def poolOrdered (pool : List (CString × RemoteMemoryObject)) : Prop :=
  pool.Pairwise (fun a b => a.1.addr < b.1.addr)

/-- How a call of a server function ends: it returns a value, it is left by
the exception of `UMAP_ERROR`, or an assertion fails. -/
inductive Ret (α : Type) where
  | returned (value : α) (s : ServerState)
  | raised (s : ServerState)
  | aborted

/-- `server_fini` (lines 455-464), counted. -/
def server_fini (s : ServerState) : ServerState :=
  { s with server_fini_calls := s.server_fini_calls + 1 }

/-- `server_add_resource` (lines 33-45).  The macro `UMAP_ERROR` is defined in
`util/Macros.hpp`, which is not part of the source tree: `error_raises` tells
whether it leaves the function by an exception after logging (then the
`return -1` of line 39 is not reached) or only logs. -/
def server_add_resource (error_raises : Bool) (s : ServerState) (id : CString)
    (ptr rsize : Nat) : Ret Int :=
  match pool_find s.remote_memory_pool id with
  | some _ => if error_raises = true then Ret.raised s else Ret.returned (-1) s
  | none =>
    Ret.returned 0
      { s with remote_memory_pool :=
          pool_emplace s.remote_memory_pool id { ptr := ptr, rsize := rsize } }

/-- `server_delete_resource` (lines 47-60). -/
def server_delete_resource (s : ServerState) (id : CString) : Ret Int :=
  match pool_find s.remote_memory_pool id with
  | none => Ret.aborted
  | some _ =>
    let s1 := { s with remote_memory_pool := pool_erase s.remote_memory_pool id }
    let s2 := if s1.remote_memory_pool.length = 0 then server_fini s1 else s1
    Ret.returned 0 s2

/-- `get_memory_object` (lines 74-90); the sum of line 85 is a `size_t`
sum. -/
def get_memory_object (error_raises : Bool) (s : ServerState) (id : CString)
    (offset size : Nat) : Ret Nat :=
  match pool_find s.remote_memory_pool id with
  | none => if error_raises = true then Ret.raised s else Ret.returned 0 s
  | some e =>
    if e.2.ptr = 0 then Ret.aborted
    else if (offset + size) % SIZE_T_MOD ≤ e.2.rsize then Ret.returned e.2.ptr s
    else Ret.aborted

/-- The response codes of the RPC handlers. -/
inductive RpcResponse where
  | RPC_RESPONSE_READ_DONE
  | RPC_RESPONSE_WRITE_DONE
  | RPC_RESPONSE_REQ_AVAIL
  | RPC_RESPONSE_REQ_WRONG_SIZE
  | RPC_RESPONSE_REQ_UNAVAIL
deriving DecidableEq

/-- A bulk transfer as the handlers set it up: `length` bytes of server memory
from address `start` on, pushed to the client or pulled from it. -/
structure BulkTransfer where
  start : Nat
  length : Nat
  push : Bool
deriving DecidableEq

/-- How an RPC handler ends. -/
inductive RpcResult where
  | responded (response : RpcResponse) (transfer : Option BulkTransfer) (s : ServerState)
  | silent (s : ServerState)
  | raised (s : ServerState)
  | aborted

/-- The end of `umap_server_read_rpc` (lines 178-190): the server stops when
all announced clients have signalled completion. -/
def read_rpc_fini (s : ServerState) : ServerState :=
  if 0 < s.num_clients ∧ s.num_completed_clients = s.num_clients then server_fini s else s

/-- `umap_server_read_rpc` (lines 99-191) on the input `(id, offset, size)`. -/
def umap_server_read_rpc (error_raises : Bool) (s : ServerState) (id : CString)
    (offset size : Nat) : RpcResult :=
  if size = 0 then
    RpcResult.silent
      (read_rpc_fini { s with num_completed_clients := s.num_completed_clients + 1 })
  else
    match get_memory_object error_raises s id offset size with
    | Ret.raised s1 => RpcResult.raised s1
    | Ret.aborted => RpcResult.aborted
    | Ret.returned server_buf_ptr s1 =>
      RpcResult.responded RpcResponse.RPC_RESPONSE_READ_DONE
        (some { start := (server_buf_ptr + offset) % SIZE_T_MOD, length := size, push := true })
        (read_rpc_fini s1)

/-- `umap_server_write_rpc` (lines 201-281) on the input `(id, offset, size)`. -/
def umap_server_write_rpc (error_raises : Bool) (s : ServerState) (id : CString)
    (offset size : Nat) : RpcResult :=
  if size = 0 then RpcResult.aborted
  else
    match get_memory_object error_raises s id offset size with
    | Ret.raised s1 => RpcResult.raised s1
    | Ret.aborted => RpcResult.aborted
    | Ret.returned server_buf_ptr s1 =>
      RpcResult.responded RpcResponse.RPC_RESPONSE_WRITE_DONE
        (some { start := (server_buf_ptr + offset) % SIZE_T_MOD, length := size, push := false })
        s1

/-- `umap_server_request_rpc` (lines 291-342) on the input `(id, size)`. -/
def umap_server_request_rpc (s : ServerState) (id : CString) (size : Nat) : RpcResult :=
  match pool_find s.remote_memory_pool id with
  | some _ =>
    let r := pool_index s.remote_memory_pool id
    if size = r.1.rsize then
      RpcResult.responded RpcResponse.RPC_RESPONSE_REQ_AVAIL none
        { s with remote_memory_pool := r.2 }
    else
      let r2 := pool_index r.2 id
      RpcResult.responded RpcResponse.RPC_RESPONSE_REQ_WRONG_SIZE none
        { s with remote_memory_pool := r2.2 }
  | none => RpcResult.responded RpcResponse.RPC_RESPONSE_REQ_UNAVAIL none s

/-- A server that has published the object `arr_a` (4096 bytes at address
65536) under the key address 100. -/
def sampleServer : ServerState :=
  { remote_memory_pool := [(⟨100, "arr_a"⟩, ⟨65536, 4096⟩)]
    num_completed_clients := 0
    num_clients := 0
    server_fini_calls := 0 }

/-! ## Teardown of a `FillManager` (destructor, lines 68-76) -/

/-- The statements of the destructor. -/
inductive TeardownCall where
  | stop_uffd
  | stop_thread_pool
  | delete_fill_workers
  | delete_flush_manager
  | delete_buffer
  | delete_uffd
deriving DecidableEq

/-- What is alive of a `FillManager`: the listener still delivers faults, the
coordinator thread pool still runs, and the four objects made by the
constructor (lines 50-63) still exist. -/
structure Parts where
  listening : Bool
  coordinator_running : Bool
  fill_workers : Bool
  flush_manager : Bool
  buffer : Bool
  uffd : Bool
deriving DecidableEq

/-- The effect of one statement of the destructor. -/
def Parts.apply (p : Parts) : TeardownCall → Parts
  | TeardownCall.stop_uffd => { p with listening := false }
  | TeardownCall.stop_thread_pool => { p with coordinator_running := false }
  | TeardownCall.delete_fill_workers => { p with fill_workers := false }
  | TeardownCall.delete_flush_manager => { p with flush_manager := false }
  | TeardownCall.delete_buffer => { p with buffer := false }
  | TeardownCall.delete_uffd => { p with uffd := false, listening := false }

/-- The destructor `~FillManager` (lines 68-76): its statements in order. -/
def FillManager.destructor : List TeardownCall :=
  [TeardownCall.stop_uffd, TeardownCall.stop_thread_pool, TeardownCall.delete_fill_workers,
   TeardownCall.delete_flush_manager, TeardownCall.delete_buffer, TeardownCall.delete_uffd]

/-- A `FillManager` after its constructor (lines 45-66). -/
def FillManager.constructed : Parts :=
  { listening := true, coordinator_running := true, fill_workers := true,
    flush_manager := true, buffer := true, uffd := true }

/-- The states a list of statements runs through, one after each statement. -/
def teardownStates (p : Parts) : List TeardownCall → List Parts
  | [] => []
  | c :: cs => p.apply c :: teardownStates (p.apply c) cs

/-- The objects a part of the manager works on: the fill workers are made
from `m_uffd` and `m_buffer` (line 58), the flush manager from `m_buffer` and
`m_uffd` (lines 60-63), and the coordinator calls all four in `FillMgr`.
Each is named by the statement that destroys it. -/
def usedBy : TeardownCall → List TeardownCall
  | TeardownCall.stop_thread_pool =>
    [TeardownCall.delete_fill_workers, TeardownCall.delete_flush_manager,
     TeardownCall.delete_buffer, TeardownCall.delete_uffd]
  | TeardownCall.delete_fill_workers => [TeardownCall.delete_buffer, TeardownCall.delete_uffd]
  | TeardownCall.delete_flush_manager => [TeardownCall.delete_buffer, TeardownCall.delete_uffd]
  | _ => []

/-! ## The mapped region: writes, evictions and flush

None of this code is part of the source tree: `umap_flush` is only called, by
`tests/flush_buffer/flush_buffer.cpp`, and the fill workers, the flush workers
and the fault listener are absent.  Their steps are taken from sections 4.1 to
4.4 and 6 of the spec and run one after the other; the coordinator's part in
them is `processEvent`. -/

/-- A mapped region with its buffer and its store, page by page: `slots` are
the descriptors of the buffer, `core a` is the content of the page at address
`a` as the application sees it, and `store a` is the content of the store at
the offset of that page. -/
structure Mapping where
  buffer : Buffer
  slots : List Nat
  core : Nat → Nat
  store : Nat → Nat

/-- Modelled from the spec: a fill worker on one work item.  An item with a
store is FILL(pd, store): "read one page from `store` at offset `pd.page_addr −
base`, then call `install_page(pd.page_addr, buffer, write_enabled =
pd.dirty)`; then `mark_present(pd)`".  An item without a store is
WRITE_UNPROTECT(pd): "call `enable_writes(pd.page_addr)`; then
`mark_writable(pd)`", which "transitions UPDATING back to PRESENT". -/
def fillWorker (m : Mapping) (w : WorkItem) : Mapping :=
  match w.page_desc with
  | none => m
  | some pd =>
    if w.store = 0 then
      { m with buffer := m.buffer.modify pd PageDescriptor.set_state_present }
    else
      { m with
        core := fun a => if a = (m.buffer.descs pd).page_addr then m.store a else m.core a
        buffer := m.buffer.mark_present pd }

/-- Modelled from the spec: the service of one fault.  The coordinator takes
the event up (`processEvent`, with no other thread interfering) and the fill
workers carry out the items it sends.  The result is `none` when the
coordinator waits for a free descriptor: the faulting thread then stays
suspended. -/
def faultService (m_store : Nat) (m : Mapping) (e : PageEvent) : Option Mapping :=
  let s := processEvent quietEnv m_store { buffer := m.buffer, trace := [], blocked := false } e
  if s.blocked = true then none
  else some ((fillSent s.trace).foldl fillWorker { m with buffer := s.buffer })

/-- Modelled from the spec: a page can be written without a fault when it is
installed write-enabled, that is when it is resident and its descriptor is
dirty (`install_page` with `write_enabled = pd.dirty`, `enable_writes` after
the upgrade, `disable_writes` before a write-back). -/
def writable (m : Mapping) (a : Nat) : Bool :=
  match m.buffer.present_index a with
  | some pd => (m.buffer.descs pd).dirty
  | none => false

/-- Modelled from the spec: the application writes `v` to the page at `a`.  On
a page that is not writable the write raises a write fault ("a subsequent write
on the page must re-enter `get_events()` as a write-fault on that page") and
goes ahead when the fault has been served. -/
def appWrite (m_store : Nat) (m : Mapping) (a v : Nat) : Mapping :=
  if writable m a = true then
    { m with core := fun x => if x = a then v else m.core x }
  else
    match faultService m_store m { aligned_page_address := a, is_write_fault := true } with
    | none => m
    | some m1 => { m1 with core := fun x => if x = a then v else m1.core x }

/-- Modelled from the spec: the application reads the page at `a`; on a page
that is not resident the read raises a read fault. -/
def appRead (m_store : Nat) (m : Mapping) (a : Nat) : Mapping :=
  match m.buffer.present_index a with
  | some _ => m
  | none =>
    match faultService m_store m { aligned_page_address := a, is_write_fault := false } with
    | none => m
    | some m1 => m1

/-- Modelled from the spec: the flush workers evict the page at `a`.
`select_victims` takes a descriptor "whose state is PRESENT" and removes it
"from `present_index` and `present_queue`"; EVICT_ONE does "if `pd.dirty`,
call `disable_writes(pd.page_addr)` then `store.write(page, page_size,
offset)`; unmap the page from the virtual range; then `release(pd)`", and
`release` "resets `dirty`, `deferred`, returns slot to `free_list`".  When the
store refuses the write the page stays as it is ("the page is marked dirty
again"). -/
def evictPage (write_ok : Nat → Bool) (m : Mapping) (a : Nat) : Mapping :=
  match m.buffer.present_index a with
  | none => m
  | some pd =>
    if (m.buffer.descs pd).state = State.PRESENT then
      if (m.buffer.descs pd).dirty = true ∧ write_ok a = false then m
      else
        { m with
          store := fun x =>
            if x = a ∧ (m.buffer.descs pd).dirty = true then m.core x else m.store x
          buffer :=
            { m.buffer with
              descs := fun p =>
                if p = pd then
                  { page_addr := (m.buffer.descs pd).page_addr, state := State.FREE,
                    dirty := false, deferred := false }
                else m.buffer.descs p
              present_index := fun x => if x = a then none else m.buffer.present_index x
              present_queue := m.buffer.present_queue.filter (fun p => p != pd)
              free_list := m.buffer.free_list ++ [pd] } }
    else m

/-- What happens to a mapped region: the application writes or reads a page,
or the flush workers evict one. -/
inductive MapOp where
  | write (a v : Nat)
  | read (a : Nat)
  | evict (a : Nat)

/-- One step of the mapped region. -/
def stepOp (m_store : Nat) (write_ok : Nat → Bool) (m : Mapping) : MapOp → Mapping
  | MapOp.write a v => appWrite m_store m a v
  | MapOp.read a => appRead m_store m a
  | MapOp.evict a => evictPage write_ok m a

/-- A run of the mapped region. -/
def runOps (m_store : Nat) (write_ok : Nat → Bool) (ops : List MapOp) (m : Mapping) : Mapping :=
  ops.foldl (stepOp m_store write_ok) m

/-- Modelled from the spec: the write-back of one descriptor by a flush.  A
dirty page is written to the store, "`store.write(page, page_size, offset)`",
and is clean afterwards; `write_ok a` tells whether the store accepts the write
of the page at `a`, and a write that fails for good makes the flush fail
("persistent failure is fatal"). -/
def flush_one (write_ok : Nat → Bool) (m : Mapping) (pd : Nat) : Option Mapping :=
  if (m.buffer.descs pd).dirty = true then
    if write_ok (m.buffer.descs pd).page_addr = true then
      some
        { m with
          store := fun a =>
            if a = (m.buffer.descs pd).page_addr then m.core a else m.store a
          buffer := m.buffer.modify pd (fun d => { d with dirty := false }) }
    else none
  else some m

/-- The write-back of a list of descriptors, in order. -/
def flush_pages (write_ok : Nat → Bool) : List Nat → Mapping → Option Mapping
  | [], m => some m
  | pd :: rest, m =>
    match flush_one write_ok m pd with
    | none => none
    | some m1 => flush_pages write_ok rest m1

/-- Modelled from the spec: `flush() → ok | error`, which "blocks until all
dirty pages in the buffer have been written back; the buffer is not required
to be empty on return, only clean": every descriptor of the buffer that is
dirty is written back, in whatever state it is. -/
def umap_flush (write_ok : Nat → Bool) (m : Mapping) : Option Mapping :=
  flush_pages write_ok m.slots m

/-- Bookkeeping of the buffer: a resident page is held by a descriptor of the
buffer that carries its address and is not on the free list, and the free list
holds clean descriptors of the buffer, each once. -/
def wellFormed (m : Mapping) : Prop :=
  (∀ a pd, m.buffer.present_index a = some pd →
    pd ∈ m.slots ∧ (m.buffer.descs pd).page_addr = a ∧ pd ∉ m.buffer.free_list) ∧
  (∀ pd ∈ m.buffer.free_list, pd ∈ m.slots ∧ (m.buffer.descs pd).dirty = false) ∧
  m.buffer.free_list.Nodup

/-- Every page whose content differs from the store is resident and its
descriptor is dirty. -/
def modifiedAreDirty (m : Mapping) : Prop :=
  ∀ a, m.core a ≠ m.store a →
    ∃ pd, m.buffer.present_index a = some pd ∧ (m.buffer.descs pd).dirty = true

/-- Modelled from the spec: the mapped region between the coordinator's step
on a fault and the fill worker's: the descriptor has been allocated (FILLING)
or upgraded (UPDATING) by `processEvent`, the work item is still in the queue
and the faulting thread is suspended. -/
def faultPending (m_store : Nat) (m : Mapping) (e : PageEvent) : Mapping :=
  { m with
    buffer :=
      (processEvent quietEnv m_store { buffer := m.buffer, trace := [], blocked := false }
        e).buffer }

/-- Modelled from the spec: the region right after `map`, with a buffer of
`capacity` descriptors, all FREE and on the free list, no page resident, and
the application seeing what the store holds. -/
def freshMapping (capacity low high : Nat) (store : Nat → Nat) : Mapping :=
  { buffer :=
      { descs := fun _ => { page_addr := 0, state := State.FREE, dirty := false,
                            deferred := false }
        present_index := fun _ => none
        free_list := List.range capacity
        present_queue := []
        low_watermark := low
        high_watermark := high }
    slots := List.range capacity
    core := store
    store := store }

/-- A freshly mapped region on `sampleBuffer` with all its pages clean: the
application sees what the store holds. -/
def sampleMapping : Mapping :=
  { buffer :=
      { sampleBuffer with
        descs := fun p =>
          if p = 0 then
            { page_addr := 4096, state := State.PRESENT, dirty := false, deferred := false }
          else if p = 1 then
            { page_addr := 8192, state := State.PRESENT, dirty := false, deferred := false }
          else { page_addr := 0, state := State.FREE, dirty := false, deferred := false } }
    slots := [0, 1, 2, 3]
    core := fun a => if a = 4096 then 10 else if a = 8192 then 20 else 0
    store := fun a => if a = 4096 then 10 else if a = 8192 then 20 else 0 }

/-! ## Basic facts -/

theorem fillSent_append (xs ys : List Call) :
    fillSent (xs ++ ys) = fillSent xs ++ fillSent ys := by
  induction xs with
  | nil => rfl
  | cons c cs ih => cases c <;> simp [fillSent, ih]

theorem flushSent_append (xs ys : List Call) :
    flushSent (xs ++ ys) = flushSent xs ++ flushSent ys := by
  induction xs with
  | nil => rfl
  | cons c cs ih => cases c <;> simp [flushSent, ih]

theorem threshold_yield_blocked (env : Nat → Buffer → Buffer) (s : MgrState) :
    (threshold_yield env s).blocked = s.blocked := by
  unfold threshold_yield
  split <;> rfl

theorem threshold_yield_fillSent (env : Nat → Buffer → Buffer) (s : MgrState) :
    fillSent (threshold_yield env s).trace = fillSent s.trace := by
  unfold threshold_yield
  split <;> simp [MgrState.call, fillSent_append, fillSent]

/-! ## Classification of one event -/

/-- C1: a fault on a resident page that is a read fault, or a write fault on a
descriptor that is already dirty, is dropped.  The coordinator makes the
lookup and nothing else: the buffer (hence the dirty flag and the state of the
descriptor) is the one it looked the page up in, and the list of work items
sent to the fill workers is the one from before the event. -/
theorem spurious_fault_dropped (env : Nat → Buffer → Buffer) (m_store : Nat)
    (s : MgrState) (event : PageEvent) (pd : Nat)
    (hrun : s.blocked = false)
    (hres : (threshold_yield env s).buffer.page_already_present
      event.aligned_page_address = some pd)
    (hspur : event.is_write_fault = false ∨
      ((threshold_yield env s).buffer.descs pd).page_is_dirty = true) :
    processEvent env m_store s event =
        (threshold_yield env s).call
          (Call.page_already_present event.aligned_page_address (some pd)) ∧
      (processEvent env m_store s event).buffer = (threshold_yield env s).buffer ∧
      ((processEvent env m_store s event).buffer.descs pd).dirty =
        ((threshold_yield env s).buffer.descs pd).dirty ∧
      ((processEvent env m_store s event).buffer.descs pd).state =
        ((threshold_yield env s).buffer.descs pd).state ∧
      fillSent (processEvent env m_store s event).trace = fillSent s.trace := by
  have hstep : processEvent env m_store s event =
      (threshold_yield env s).call
        (Call.page_already_present event.aligned_page_address (some pd)) := by
    unfold processEvent classify
    simp only [hrun, Bool.false_eq_true, if_false, hres, MgrState.call]
    rcases hspur with hr | hd
    · simp [hr]
    · simp [hd]
  refine ⟨hstep, ?_, ?_, ?_, ?_⟩
  · rw [hstep]; rfl
  · rw [hstep]; rfl
  · rw [hstep]; rfl
  · rw [hstep]
    simp [MgrState.call, fillSent_append, fillSent, threshold_yield_fillSent]

/-- C1 at a concrete input: a read fault on the resident page 4096 of
`sampleBuffer`. -/
theorem spurious_fault_dropped_witness :
    processEvent quietEnv 7 sampleState ⟨4096, false⟩ =
        (threshold_yield quietEnv sampleState).call (Call.page_already_present 4096 (some 0)) ∧
      (processEvent quietEnv 7 sampleState ⟨4096, false⟩).buffer =
        (threshold_yield quietEnv sampleState).buffer ∧
      ((processEvent quietEnv 7 sampleState ⟨4096, false⟩).buffer.descs 0).dirty =
        ((threshold_yield quietEnv sampleState).buffer.descs 0).dirty ∧
      ((processEvent quietEnv 7 sampleState ⟨4096, false⟩).buffer.descs 0).state =
        ((threshold_yield quietEnv sampleState).buffer.descs 0).state ∧
      fillSent (processEvent quietEnv 7 sampleState ⟨4096, false⟩).trace =
        fillSent sampleState.trace :=
  spurious_fault_dropped quietEnv 7 sampleState ⟨4096, false⟩ 0 rfl rfl (Or.inl rfl)

/-- C2: a write fault on a resident page whose descriptor is not dirty sets
the dirty flag of that descriptor, moves it to state UPDATING and sends exactly
one work item to the fill workers, carrying this descriptor and no store.  No
other descriptor and no other part of the buffer changes. -/
theorem write_fault_upgrades (env : Nat → Buffer → Buffer) (m_store : Nat)
    (s : MgrState) (event : PageEvent) (pd : Nat)
    (hrun : s.blocked = false)
    (hres : (threshold_yield env s).buffer.page_already_present
      event.aligned_page_address = some pd)
    (hwrite : event.is_write_fault = true)
    (hclean : ((threshold_yield env s).buffer.descs pd).page_is_dirty = false) :
    ((processEvent env m_store s event).buffer.descs pd).dirty = true ∧
      ((processEvent env m_store s event).buffer.descs pd).state = State.UPDATING ∧
      (processEvent env m_store s event).trace =
        (threshold_yield env s).trace ++
          [Call.page_already_present event.aligned_page_address (some pd),
           Call.mark_page_dirty pd, Call.set_state_updating pd,
           Call.fill_send_work { type := none, page_desc := some pd, store := 0 }] ∧
      fillSent (processEvent env m_store s event).trace =
        fillSent s.trace ++ [{ type := none, page_desc := some pd, store := 0 }] ∧
      (∀ q, q ≠ pd → (processEvent env m_store s event).buffer.descs q =
        (threshold_yield env s).buffer.descs q) ∧
      (processEvent env m_store s event).buffer.present_index =
        (threshold_yield env s).buffer.present_index ∧
      (processEvent env m_store s event).buffer.free_list =
        (threshold_yield env s).buffer.free_list ∧
      (processEvent env m_store s event).buffer.present_queue =
        (threshold_yield env s).buffer.present_queue := by
  have hclean2 : ((threshold_yield env s).buffer.descs pd).dirty = false := hclean
  have hstep : processEvent env m_store s event =
      { buffer := ((threshold_yield env s).buffer.modify pd
            PageDescriptor.mark_page_dirty).modify pd PageDescriptor.set_state_updating
        trace := (threshold_yield env s).trace ++
          [Call.page_already_present event.aligned_page_address (some pd),
           Call.mark_page_dirty pd, Call.set_state_updating pd,
           Call.fill_send_work { type := none, page_desc := some pd, store := 0 }]
        blocked := (threshold_yield env s).blocked } := by
    unfold processEvent classify
    simp [hrun, hres, MgrState.call, hwrite, PageDescriptor.page_is_dirty, hclean2]
  rw [hstep]
  refine ⟨?_, ?_, rfl, ?_, ?_, rfl, rfl, rfl⟩
  · simp [Buffer.modify, PageDescriptor.mark_page_dirty, PageDescriptor.set_state_updating]
  · simp [Buffer.modify, PageDescriptor.mark_page_dirty, PageDescriptor.set_state_updating]
  · simp [fillSent_append, fillSent, threshold_yield_fillSent]
  · intro q hq
    simp [Buffer.modify, hq]

/-- C2 at a concrete input: a write fault on the clean resident page 4096 of
`sampleBuffer`. -/
theorem write_fault_upgrades_witness :
    ((processEvent quietEnv 7 sampleState ⟨4096, true⟩).buffer.descs 0).dirty = true ∧
      ((processEvent quietEnv 7 sampleState ⟨4096, true⟩).buffer.descs 0).state =
        State.UPDATING ∧
      (processEvent quietEnv 7 sampleState ⟨4096, true⟩).trace =
        (threshold_yield quietEnv sampleState).trace ++
          [Call.page_already_present 4096 (some 0),
           Call.mark_page_dirty 0, Call.set_state_updating 0,
           Call.fill_send_work { type := none, page_desc := some 0, store := 0 }] ∧
      fillSent (processEvent quietEnv 7 sampleState ⟨4096, true⟩).trace =
        fillSent sampleState.trace ++ [{ type := none, page_desc := some 0, store := 0 }] ∧
      (∀ q, q ≠ 0 → (processEvent quietEnv 7 sampleState ⟨4096, true⟩).buffer.descs q =
        (threshold_yield quietEnv sampleState).buffer.descs q) ∧
      (processEvent quietEnv 7 sampleState ⟨4096, true⟩).buffer.present_index =
        (threshold_yield quietEnv sampleState).buffer.present_index ∧
      (processEvent quietEnv 7 sampleState ⟨4096, true⟩).buffer.free_list =
        (threshold_yield quietEnv sampleState).buffer.free_list ∧
      (processEvent quietEnv 7 sampleState ⟨4096, true⟩).buffer.present_queue =
        (threshold_yield quietEnv sampleState).buffer.present_queue :=
  write_fault_upgrades quietEnv 7 sampleState ⟨4096, true⟩ 0 rfl rfl rfl rfl

/-- C3: a fault on a page that is not resident.  If the buffer has a free
descriptor `pd`, the coordinator takes it for the page address, sets its state
to FILLING, makes the page resident and sends exactly one work item to the fill
workers, carrying `pd` and the store of the mapping; the send is the last call,
and the dirty flag of `pd` then is the `is_write_fault` flag of the event,
given that `pd` was handed out clean.  If the buffer has no free descriptor the
coordinator waits in `get_page_descriptor`: it has sent nothing and takes up no
later event; once the other threads leave a buffer with a free descriptor `pd`
the call returns and the coordinator goes on in the same way. -/
theorem new_page_filled (env : Nat → Buffer → Buffer) (m_store : Nat)
    (s : MgrState) (event : PageEvent)
    (hrun : s.blocked = false)
    (hres : (threshold_yield env s).buffer.page_already_present
      event.aligned_page_address = none) :
    (∀ pd rest, (threshold_yield env s).buffer.free_list = pd :: rest →
      (processEvent env m_store s event).buffer.descs pd =
          { page_addr := event.aligned_page_address, state := State.FILLING,
            dirty := (event.is_write_fault ||
              ((threshold_yield env s).buffer.descs pd).dirty),
            deferred := ((threshold_yield env s).buffer.descs pd).deferred } ∧
        (((threshold_yield env s).buffer.descs pd).dirty = false →
          ((processEvent env m_store s event).buffer.descs pd).dirty =
            event.is_write_fault) ∧
        (processEvent env m_store s event).buffer.page_already_present
          event.aligned_page_address = some pd ∧
        (processEvent env m_store s event).buffer.free_list = rest ∧
        (processEvent env m_store s event).trace =
          (threshold_yield env s).trace ++
            [Call.page_already_present event.aligned_page_address none,
             Call.get_page_descriptor event.aligned_page_address (some pd),
             Call.set_state_filling pd, Call.mark_page_present pd] ++
            (if event.is_write_fault = true then [Call.mark_page_dirty pd] else []) ++
            [Call.fill_send_work { type := none, page_desc := some pd, store := m_store }] ∧
        fillSent (processEvent env m_store s event).trace =
          fillSent s.trace ++ [{ type := none, page_desc := some pd, store := m_store }] ∧
        (processEvent env m_store s event).blocked = false) ∧
    ((threshold_yield env s).buffer.free_list = [] →
      processEvent env m_store s event =
          { buffer := (threshold_yield env s).buffer
            trace := (threshold_yield env s).trace ++
              [Call.page_already_present event.aligned_page_address none,
               Call.get_page_descriptor event.aligned_page_address none]
            blocked := true } ∧
        fillSent (processEvent env m_store s event).trace = fillSent s.trace ∧
        (∀ later : PageEvent,
          processEvent env m_store (processEvent env m_store s event) later =
            processEvent env m_store s event) ∧
        (∀ (b : Buffer) (pd : Nat) (rest : List Nat), b.free_list = pd :: rest →
          (afterWait m_store (processEvent env m_store s event) event b).buffer.descs pd =
              { page_addr := event.aligned_page_address, state := State.FILLING,
                dirty := (event.is_write_fault || (b.descs pd).dirty),
                deferred := (b.descs pd).deferred } ∧
            ((b.descs pd).dirty = false →
              ((afterWait m_store (processEvent env m_store s event) event b).buffer.descs
                pd).dirty = event.is_write_fault) ∧
            (afterWait m_store (processEvent env m_store s event) event
              b).buffer.page_already_present event.aligned_page_address = some pd ∧
            (afterWait m_store (processEvent env m_store s event) event b).buffer.free_list =
              rest ∧
            (afterWait m_store (processEvent env m_store s event) event b).trace =
              (processEvent env m_store s event).trace ++
                [Call.get_page_descriptor event.aligned_page_address (some pd),
                 Call.set_state_filling pd, Call.mark_page_present pd] ++
                (if event.is_write_fault = true then [Call.mark_page_dirty pd] else []) ++
                [Call.fill_send_work
                  { type := none, page_desc := some pd, store := m_store }] ∧
            fillSent (afterWait m_store (processEvent env m_store s event) event b).trace =
              fillSent s.trace ++ [{ type := none, page_desc := some pd, store := m_store }] ∧
            (afterWait m_store (processEvent env m_store s event) event b).blocked =
              false)) := by
  have hb : (threshold_yield env s).blocked = false := by
    rw [threshold_yield_blocked]; exact hrun
  have hres2 : (threshold_yield env s).buffer.present_index event.aligned_page_address =
      none := hres
  constructor
  · intro pd rest hfree
    cases hw : event.is_write_fault
    · simp [processEvent, classify, hrun, hres2, MgrState.call, hw, Buffer.get_page_descriptor,
        hfree, Buffer.modify, Buffer.mark_page_present, Buffer.page_already_present,
        PageDescriptor.set_state_filling, fillSent_append, fillSent,
        threshold_yield_fillSent, hb]
    · simp [processEvent, classify, hrun, hres2, MgrState.call, hw, Buffer.get_page_descriptor,
        hfree, Buffer.modify, Buffer.mark_page_present, Buffer.page_already_present,
        PageDescriptor.set_state_filling, PageDescriptor.mark_page_dirty, fillSent_append,
        fillSent, threshold_yield_fillSent, hb]
  · intro hfree
    have hstep : processEvent env m_store s event =
        { buffer := (threshold_yield env s).buffer
          trace := (threshold_yield env s).trace ++
            [Call.page_already_present event.aligned_page_address none,
             Call.get_page_descriptor event.aligned_page_address none]
          blocked := true } := by
      simp [processEvent, classify, hrun, hres2, MgrState.call, Buffer.get_page_descriptor,
        hfree, Buffer.page_already_present]
    refine ⟨hstep, ?_, ?_, ?_⟩
    · rw [hstep]
      simp [fillSent_append, fillSent, threshold_yield_fillSent]
    · intro later
      rw [hstep]
      simp [processEvent]
    · intro b pd rest hbfree
      rw [hstep]
      cases hw : event.is_write_fault
      · simp [afterWait, MgrState.call, hw, Buffer.get_page_descriptor, hbfree,
          Buffer.modify, Buffer.mark_page_present, Buffer.page_already_present,
          PageDescriptor.set_state_filling, fillSent_append, fillSent,
          threshold_yield_fillSent]
      · simp [afterWait, MgrState.call, hw, Buffer.get_page_descriptor, hbfree,
          Buffer.modify, Buffer.mark_page_present, Buffer.page_already_present,
          PageDescriptor.set_state_filling, PageDescriptor.mark_page_dirty, fillSent_append,
          fillSent, threshold_yield_fillSent]

/-- C3 at concrete inputs: a write fault on page 12288, which is not resident.
On `sampleState` the buffer hands out descriptor 2; on `fullState` the
coordinator waits, and goes on with descriptor 1 once the other threads have
freed it. -/
theorem new_page_filled_witness :
    ((processEvent quietEnv 7 sampleState ⟨12288, true⟩).buffer.descs 2 =
        { page_addr := 12288, state := State.FILLING, dirty := true, deferred := false } ∧
      fillSent (processEvent quietEnv 7 sampleState ⟨12288, true⟩).trace =
        [{ type := none, page_desc := some 2, store := 7 }]) ∧
    ((processEvent quietEnv 7 fullState ⟨12288, true⟩).blocked = true ∧
      fillSent (processEvent quietEnv 7 fullState ⟨12288, true⟩).trace = [] ∧
      fillSent (afterWait 7 (processEvent quietEnv 7 fullState ⟨12288, true⟩) ⟨12288, true⟩
        evictedBuffer).trace =
        [{ type := none, page_desc := some 1, store := 7 }] ∧
      (afterWait 7 (processEvent quietEnv 7 fullState ⟨12288, true⟩) ⟨12288, true⟩
        evictedBuffer).blocked = false) :=
  ⟨⟨((new_page_filled quietEnv 7 sampleState ⟨12288, true⟩ rfl rfl).1 2 [3] rfl).1,
    ((new_page_filled quietEnv 7 sampleState ⟨12288, true⟩ rfl rfl).1 2 [3] rfl).2.2.2.2.2.1⟩,
   by
    have h := (new_page_filled quietEnv 7 fullState ⟨12288, true⟩ rfl rfl).2 rfl
    have hw := h.2.2.2 evictedBuffer 1 [] rfl
    exact ⟨by rw [h.1], h.2.1, hw.2.2.2.2.2.1, hw.2.2.2.2.2.2⟩⟩

/-! ## The threshold yield -/

theorem classify_trace (m_store : Nat) (s : MgrState) (event : PageEvent) :
    ∃ cs, (classify m_store s event).trace =
        s.trace ++ Call.page_already_present event.aligned_page_address
          (s.buffer.page_already_present event.aligned_page_address) :: cs ∧
      flushSent cs = [] := by
  unfold classify
  cases hr : s.buffer.page_already_present event.aligned_page_address with
  | some pd =>
    by_cases hc : event.is_write_fault = true ∧ (s.buffer.descs pd).page_is_dirty = false
    · exact ⟨[Call.mark_page_dirty pd, Call.set_state_updating pd,
        Call.fill_send_work { type := none, page_desc := some pd, store := 0 }],
        by simp [MgrState.call, hc], by simp [flushSent]⟩
    · exact ⟨[], by simp [MgrState.call, hc], by simp [flushSent]⟩
  | none =>
    cases hg : s.buffer.get_page_descriptor event.aligned_page_address with
    | none =>
      exact ⟨[Call.get_page_descriptor event.aligned_page_address none],
        by simp [MgrState.call, hg], by simp [flushSent]⟩
    | some r =>
      obtain ⟨pd, b⟩ := r
      cases hw : event.is_write_fault
      · exact ⟨[Call.get_page_descriptor event.aligned_page_address (some pd),
          Call.set_state_filling pd, Call.mark_page_present pd,
          Call.fill_send_work { type := none, page_desc := some pd, store := m_store }],
          by simp [MgrState.call, hg, hw], by simp [flushSent]⟩
      · exact ⟨[Call.get_page_descriptor event.aligned_page_address (some pd),
          Call.set_state_filling pd, Call.mark_page_present pd, Call.mark_page_dirty pd,
          Call.fill_send_work { type := none, page_desc := some pd, store := m_store }],
          by simp [MgrState.call, hg, hw], by simp [flushSent]⟩

/-- C4: when an event is taken up and the buffer reports the flush threshold
reached, the coordinator sends exactly one THRESHOLD item (no descriptor, no
store) to the flush manager, then unlocks and locks the buffer, and only then
looks up the address of that same event, in the buffer the other threads left
behind, and classifies it.  When the threshold is not reached it sends nothing
to the flush manager for the event and goes to the lookup directly. -/
theorem threshold_then_classify (env : Nat → Buffer → Buffer) (m_store : Nat)
    (s : MgrState) (event : PageEvent) (hrun : s.blocked = false) :
    (s.buffer.flush_threshold_reached = true →
      processEvent env m_store s event =
          classify m_store
            { buffer := env (s.trace.length + 3) s.buffer
              trace := s.trace ++
                [Call.flush_threshold_reached true,
                 Call.flush_send_work
                   { type := some WorkType.THRESHOLD, page_desc := none, store := 0 },
                 Call.unlock, Call.lock]
              blocked := false } event ∧
        (∃ cs, (processEvent env m_store s event).trace =
            s.trace ++
              [Call.flush_threshold_reached true,
               Call.flush_send_work
                 { type := some WorkType.THRESHOLD, page_desc := none, store := 0 },
               Call.unlock, Call.lock] ++
              Call.page_already_present event.aligned_page_address
                ((env (s.trace.length + 3) s.buffer).page_already_present
                  event.aligned_page_address) :: cs ∧
          flushSent cs = []) ∧
        flushSent (processEvent env m_store s event).trace =
          flushSent s.trace ++
            [{ type := some WorkType.THRESHOLD, page_desc := none, store := 0 }]) ∧
    (s.buffer.flush_threshold_reached = false →
      processEvent env m_store s event =
          classify m_store (s.call (Call.flush_threshold_reached false)) event ∧
        (∃ cs, (processEvent env m_store s event).trace =
            s.trace ++ [Call.flush_threshold_reached false] ++
              Call.page_already_present event.aligned_page_address
                (s.buffer.page_already_present event.aligned_page_address) :: cs ∧
          flushSent cs = []) ∧
        flushSent (processEvent env m_store s event).trace = flushSent s.trace) := by
  constructor
  · intro hth
    have hy : threshold_yield env s =
        { buffer := env (s.trace.length + 3) s.buffer
          trace := s.trace ++
            [Call.flush_threshold_reached true,
             Call.flush_send_work
               { type := some WorkType.THRESHOLD, page_desc := none, store := 0 },
             Call.unlock, Call.lock]
          blocked := false } := by
      simp [threshold_yield, hth, MgrState.call, thresholdItem, hrun]
    have hp : processEvent env m_store s event =
        classify m_store (threshold_yield env s) event := by
      simp [processEvent, hrun]
    rw [hp, hy]
    refine ⟨rfl, ?_⟩
    obtain ⟨cs, hcs, hfl⟩ := classify_trace m_store
      { buffer := env (s.trace.length + 3) s.buffer
        trace := s.trace ++
          [Call.flush_threshold_reached true,
           Call.flush_send_work
             { type := some WorkType.THRESHOLD, page_desc := none, store := 0 },
           Call.unlock, Call.lock]
        blocked := false } event
    refine ⟨⟨cs, hcs, hfl⟩, ?_⟩
    rw [hcs]
    simp [flushSent_append, flushSent, hfl]
  · intro hth
    have hy : threshold_yield env s = s.call (Call.flush_threshold_reached false) := by
      simp [threshold_yield, hth]
    have hp : processEvent env m_store s event =
        classify m_store (threshold_yield env s) event := by
      simp [processEvent, hrun]
    rw [hp, hy]
    refine ⟨rfl, ?_⟩
    obtain ⟨cs, hcs, hfl⟩ := classify_trace m_store
      (s.call (Call.flush_threshold_reached false)) event
    refine ⟨⟨cs, hcs, hfl⟩, ?_⟩
    rw [hcs]
    simp [MgrState.call, flushSent_append, flushSent, hfl]

/-- C4 at concrete inputs: with the high watermark at 2 the two queued pages of
`sampleBuffer` reach the threshold; in `sampleBuffer` itself they do not. -/
theorem threshold_then_classify_witness :
    flushSent (processEvent quietEnv 7
        { buffer := { sampleBuffer with high_watermark := 2 }, trace := [], blocked := false }
        ⟨4096, false⟩).trace =
        [{ type := some WorkType.THRESHOLD, page_desc := none, store := 0 }] ∧
      flushSent (processEvent quietEnv 7 sampleState ⟨4096, false⟩).trace = [] :=
  ⟨((threshold_then_classify quietEnv 7
      { buffer := { sampleBuffer with high_watermark := 2 }, trace := [], blocked := false }
      ⟨4096, false⟩ rfl).1 rfl).2.2,
   ((threshold_then_classify quietEnv 7 sampleState ⟨4096, false⟩ rfl).2 rfl).2.2⟩

/-! ## The outer loop -/

theorem FillMgr_empty_batch (env : Nat → Buffer → Buffer) (m_store : Nat)
    (rest : List (List PageEvent)) (s : MgrState) :
    FillMgr env m_store ([] :: rest) s = FillMgr env m_store rest (getEvents env s []) := by
  simp [FillMgr]

theorem FillMgr_shutdown_batch (env : Nat → Buffer → Buffer) (m_store : Nat)
    (pe : List PageEvent) (rest : List (List PageEvent)) (s : MgrState)
    (h : isShutdownBatch pe = true) :
    FillMgr env m_store (pe :: rest) s = (Outcome.exited, getEvents env s pe) := by
  cases pe with
  | nil => simp [isShutdownBatch] at h
  | cons e0 es =>
    have h0 : isSentinel e0 = true := h
    simp [FillMgr, h0]

theorem FillMgr_fault_batch (env : Nat → Buffer → Buffer) (m_store : Nat)
    (pe : List PageEvent) (rest : List (List PageEvent)) (s : MgrState)
    (hne : pe ≠ []) (h : isShutdownBatch pe = false) :
    FillMgr env m_store (pe :: rest) s =
      if (processBatch env m_store (getEvents env s pe) pe).blocked = true then
        (Outcome.blocked, processBatch env m_store (getEvents env s pe) pe)
      else FillMgr env m_store rest (processBatch env m_store (getEvents env s pe) pe) := by
  cases pe with
  | nil => exact absurd rfl hne
  | cons e0 es =>
    have h0 : isSentinel e0 = false := h
    simp [FillMgr, h0]

theorem FillMgr_exited_iff (env : Nat → Buffer → Buffer) (m_store : Nat)
    (bs : List (List PageEvent)) :
    ∀ s : MgrState, (FillMgr env m_store bs s).1 = Outcome.exited ↔
      ∃ pre pe post, bs = pre ++ pe :: post ∧ isShutdownBatch pe = true ∧
        (FillMgr env m_store pre s).1 = Outcome.waiting := by
  induction bs with
  | nil =>
    intro s
    constructor
    · intro h
      simp [FillMgr] at h
    · rintro ⟨pre, pe, post, h, _, _⟩
      simp at h
  | cons b rest ih =>
    intro s
    by_cases hb : isShutdownBatch b = true
    · rw [FillMgr_shutdown_batch env m_store b rest s hb]
      constructor
      · intro _
        exact ⟨[], b, rest, rfl, hb, by simp [FillMgr]⟩
      · intro _
        rfl
    · have hbf : isShutdownBatch b = false := by simpa using hb
      -- the state in which the loop goes on, if it does
      have key : ∀ s1 : MgrState,
          (∀ pre : List (List PageEvent),
            FillMgr env m_store (b :: pre) s = FillMgr env m_store pre s1) →
          FillMgr env m_store (b :: rest) s = FillMgr env m_store rest s1 →
          ((FillMgr env m_store (b :: rest) s).1 = Outcome.exited ↔
            ∃ pre pe post, b :: rest = pre ++ pe :: post ∧ isShutdownBatch pe = true ∧
              (FillMgr env m_store pre s).1 = Outcome.waiting) := by
        intro s1 hpre hrest
        rw [hrest, ih s1]
        constructor
        · rintro ⟨pre, pe, post, h, hs, hw⟩
          refine ⟨b :: pre, pe, post, by simp [h], hs, ?_⟩
          rw [hpre pre]
          exact hw
        · rintro ⟨pre, pe, post, h, hs, hw⟩
          cases pre with
          | nil =>
            simp at h
            rw [← h.1] at hs
            rw [hs] at hbf
            cases hbf
          | cons x pre =>
            simp at h
            refine ⟨pre, pe, post, h.2, hs, ?_⟩
            rw [← hpre pre, h.1]
            exact hw
      by_cases hne : b = []
      · subst hne
        exact key (getEvents env s []) (fun pre => FillMgr_empty_batch env m_store pre s)
          (FillMgr_empty_batch env m_store rest s)
      · by_cases hblk : (processBatch env m_store (getEvents env s b) b).blocked = true
        · have hout : ∀ pre : List (List PageEvent),
              (FillMgr env m_store (b :: pre) s).1 = Outcome.blocked := by
            intro pre
            rw [FillMgr_fault_batch env m_store b pre s hne hbf]
            simp [hblk]
          constructor
          · intro h
            rw [hout rest] at h
            cases h
          · rintro ⟨pre, pe, post, h, hs, hw⟩
            cases pre with
            | nil =>
              simp at h
              rw [← h.1] at hs
              rw [hs] at hbf
              cases hbf
            | cons x pre =>
              simp at h
              rw [← h.1, hout pre] at hw
              cases hw
        · exact key (processBatch env m_store (getEvents env s b) b)
            (fun pre => by
              rw [FillMgr_fault_batch env m_store b pre s hne hbf]
              simp [hblk])
            (by
              rw [FillMgr_fault_batch env m_store b rest s hne hbf]
              simp [hblk])

/-- C5: the coordinator leaves its loop exactly when it receives a batch that
is not empty and whose first event is the shutdown sentinel; the batches before
it were all worked off (no exit, no wait for a descriptor).  On such a batch,
and on an empty batch, the only call is `get_page_events`: no lock, no call on
a descriptor, no work item, and the buffer is the one the other threads left
behind.  After an empty batch the loop goes on with the next batch. -/
theorem loop_exit_iff_sentinel (env : Nat → Buffer → Buffer) (m_store : Nat) :
    (∀ (bs : List (List PageEvent)) (s : MgrState),
      (FillMgr env m_store bs s).1 = Outcome.exited ↔
        ∃ pre pe post, bs = pre ++ pe :: post ∧
          (∃ e0 es, pe = e0 :: es ∧ e0.aligned_page_address = 0 ∧ e0.is_write_fault = false) ∧
          (FillMgr env m_store pre s).1 = Outcome.waiting) ∧
    (∀ (e0 : PageEvent) (es : List PageEvent) (rest : List (List PageEvent)) (s : MgrState),
      e0.aligned_page_address = 0 → e0.is_write_fault = false →
      FillMgr env m_store ((e0 :: es) :: rest) s =
        (Outcome.exited,
          { buffer := env s.trace.length s.buffer
            trace := s.trace ++ [Call.get_page_events (e0 :: es)]
            blocked := s.blocked })) ∧
    (∀ (rest : List (List PageEvent)) (s : MgrState),
      FillMgr env m_store ([] :: rest) s =
        FillMgr env m_store rest
          { buffer := env s.trace.length s.buffer
            trace := s.trace ++ [Call.get_page_events []]
            blocked := s.blocked }) := by
  have hshut : ∀ pe : List PageEvent, isShutdownBatch pe = true ↔
      ∃ e0 es, pe = e0 :: es ∧ e0.aligned_page_address = 0 ∧ e0.is_write_fault = false := by
    intro pe
    cases pe with
    | nil => simp [isShutdownBatch]
    | cons e0 es => simp [isShutdownBatch, isSentinel]
  refine ⟨?_, ?_, ?_⟩
  · intro bs s
    rw [FillMgr_exited_iff env m_store bs s]
    constructor
    · rintro ⟨pre, pe, post, h, hs, hw⟩
      exact ⟨pre, pe, post, h, (hshut pe).1 hs, hw⟩
    · rintro ⟨pre, pe, post, h, hs, hw⟩
      exact ⟨pre, pe, post, h, (hshut pe).2 hs, hw⟩
  · intro e0 es rest s ha hw
    rw [FillMgr_shutdown_batch env m_store (e0 :: es) rest s
      ((hshut (e0 :: es)).2 ⟨e0, es, rfl, ha, hw⟩)]
    rfl
  · intro rest s
    rw [FillMgr_empty_batch]
    rfl

/-! ## Lock discipline of a batch -/

theorem processEvent_spurious (env : Nat → Buffer → Buffer) (m_store : Nat)
    (s : MgrState) (event : PageEvent) (pd : Nat)
    (hrun : s.blocked = false)
    (hres : (threshold_yield env s).buffer.present_index event.aligned_page_address = some pd)
    (hspur : event.is_write_fault = false ∨
      ((threshold_yield env s).buffer.descs pd).dirty = true) :
    processEvent env m_store s event =
      (threshold_yield env s).call
        (Call.page_already_present event.aligned_page_address (some pd)) := by
  unfold processEvent classify
  simp only [hrun, Bool.false_eq_true, if_false, Buffer.page_already_present, hres,
    MgrState.call, PageDescriptor.page_is_dirty]
  rcases hspur with hr | hd
  · simp [hr]
  · simp [hd]

theorem processEvent_upgrade (env : Nat → Buffer → Buffer) (m_store : Nat)
    (s : MgrState) (event : PageEvent) (pd : Nat)
    (hrun : s.blocked = false)
    (hres : (threshold_yield env s).buffer.present_index event.aligned_page_address = some pd)
    (hwrite : event.is_write_fault = true)
    (hclean : ((threshold_yield env s).buffer.descs pd).dirty = false) :
    processEvent env m_store s event =
      { buffer := ((threshold_yield env s).buffer.modify pd
            PageDescriptor.mark_page_dirty).modify pd PageDescriptor.set_state_updating
        trace := (threshold_yield env s).trace ++
          [Call.page_already_present event.aligned_page_address (some pd),
           Call.mark_page_dirty pd, Call.set_state_updating pd,
           Call.fill_send_work { type := none, page_desc := some pd, store := 0 }]
        blocked := (threshold_yield env s).blocked } := by
  unfold processEvent classify
  simp [hrun, Buffer.page_already_present, hres, MgrState.call, hwrite,
    PageDescriptor.page_is_dirty, hclean]

theorem processEvents_cons (env : Nat → Buffer → Buffer) (m_store : Nat) (s : MgrState)
    (e : PageEvent) (es : List PageEvent) :
    processEvents env m_store s (e :: es) =
      processEvents env m_store (processEvent env m_store s e) es := by
  simp [processEvents]

/-- C8 on the batch of a read fault and a write fault on page 12288, which is
not resident in `sampleBuffer`: after the read fault descriptor 2 is in state
FILLING and clean, its FILL item just sent; the write fault then finds the page
resident and upgrades that descriptor, with the lock never released in
between: it is dirty and UPDATING afterwards and the last call sends the
write-unprotect item. -/
theorem upgrade_while_filling :
    (processEvent quietEnv 7 (sampleState.call Call.lock) ⟨12288, false⟩).trace =
        [Call.lock, Call.flush_threshold_reached false,
         Call.page_already_present 12288 none, Call.get_page_descriptor 12288 (some 2),
         Call.set_state_filling 2, Call.mark_page_present 2,
         Call.fill_send_work { type := none, page_desc := some 2, store := 7 }] ∧
      ((processEvent quietEnv 7 (sampleState.call Call.lock) ⟨12288, false⟩).buffer.descs
        2).state = State.FILLING ∧
      ((processEvent quietEnv 7 (sampleState.call Call.lock) ⟨12288, false⟩).buffer.descs
        2).dirty = false ∧
      (processEvent quietEnv 7
        (processEvent quietEnv 7 (sampleState.call Call.lock) ⟨12288, false⟩)
        ⟨12288, true⟩).trace =
        (processEvent quietEnv 7 (sampleState.call Call.lock) ⟨12288, false⟩).trace ++
          [Call.flush_threshold_reached false, Call.page_already_present 12288 (some 2),
           Call.mark_page_dirty 2, Call.set_state_updating 2,
           Call.fill_send_work { type := none, page_desc := some 2, store := 0 }] ∧
      ((processEvent quietEnv 7
        (processEvent quietEnv 7 (sampleState.call Call.lock) ⟨12288, false⟩)
        ⟨12288, true⟩).buffer.descs 2).state = State.UPDATING := by
  refine ⟨rfl, rfl, rfl, rfl, rfl⟩

/-- C9 on the batch of a read fault and a write fault on page 12288, which is
not resident in `sampleBuffer`: the coordinator holds the lock from the first
call to the last, sends nothing to the flush manager, and sends two items for
descriptor 2 to the fill workers, the FILL item and the write-unprotect
item. -/
theorem two_items_for_one_page :
    (processBatch quietEnv 7 sampleState [⟨12288, false⟩, ⟨12288, true⟩]).trace =
        [Call.lock, Call.flush_threshold_reached false,
         Call.page_already_present 12288 none, Call.get_page_descriptor 12288 (some 2),
         Call.set_state_filling 2, Call.mark_page_present 2,
         Call.fill_send_work { type := none, page_desc := some 2, store := 7 },
         Call.flush_threshold_reached false, Call.page_already_present 12288 (some 2),
         Call.mark_page_dirty 2, Call.set_state_updating 2,
         Call.fill_send_work { type := none, page_desc := some 2, store := 0 },
         Call.unlock] ∧
      fillSent (processBatch quietEnv 7 sampleState [⟨12288, false⟩, ⟨12288, true⟩]).trace =
        [{ type := none, page_desc := some 2, store := 7 },
         { type := none, page_desc := some 2, store := 0 }] ∧
      flushSent (processBatch quietEnv 7 sampleState [⟨12288, false⟩, ⟨12288, true⟩]).trace =
        [] := by
  refine ⟨rfl, rfl, rfl⟩

/-! ## The dirty flag -/

theorem classify_dirty_kept (m_store : Nat) (s : MgrState) (event : PageEvent) (q : Nat)
    (h : (s.buffer.descs q).dirty = true) :
    ((classify m_store s event).buffer.descs q).dirty = true := by
  unfold classify
  cases hr : s.buffer.page_already_present event.aligned_page_address with
  | some pd =>
    by_cases hc : event.is_write_fault = true ∧ (s.buffer.descs pd).page_is_dirty = false
    · by_cases hq : q = pd
      · simp [MgrState.call, hc, Buffer.modify, hq, PageDescriptor.set_state_updating,
          PageDescriptor.mark_page_dirty]
      · simpa [MgrState.call, hc, Buffer.modify, hq] using h
    · simpa [MgrState.call, hc] using h
  | none =>
    cases hf : s.buffer.free_list with
    | nil => simpa [MgrState.call, Buffer.get_page_descriptor, hf] using h
    | cons pd rest =>
      by_cases hq : q = pd
      · subst hq
        cases hw : event.is_write_fault <;>
          simp [MgrState.call, Buffer.get_page_descriptor, hf, hw, Buffer.modify,
            Buffer.mark_page_present, PageDescriptor.set_state_filling,
            PageDescriptor.mark_page_dirty, h]
      · cases hw : event.is_write_fault <;>
          simpa [MgrState.call, Buffer.get_page_descriptor, hf, hw, Buffer.modify,
            Buffer.mark_page_present, hq] using h

theorem classify_dirty_set (m_store : Nat) (s : MgrState) (event : PageEvent) (q : Nat)
    (hclean : (s.buffer.descs q).dirty = false)
    (h : ((classify m_store s event).buffer.descs q).dirty = true) :
    event.is_write_fault = true ∧
      (classify m_store s event).buffer.present_index event.aligned_page_address = some q := by
  unfold classify at h ⊢
  cases hr : s.buffer.page_already_present event.aligned_page_address with
  | some pd =>
    rw [hr] at h
    have hr2 : s.buffer.present_index event.aligned_page_address = some pd := hr
    by_cases hc : event.is_write_fault = true ∧ (s.buffer.descs pd).page_is_dirty = false
    · by_cases hq : q = pd
      · subst hq
        simp [MgrState.call, hc, Buffer.modify, hr2]
      · have h2 : (s.buffer.descs q).dirty = true := by
          simpa [MgrState.call, hc, Buffer.modify, hq] using h
        rw [hclean] at h2
        cases h2
    · have h2 : (s.buffer.descs q).dirty = true := by
        simpa [MgrState.call, hc] using h
      rw [hclean] at h2
      cases h2
  | none =>
    rw [hr] at h
    cases hf : s.buffer.free_list with
    | nil =>
      have h2 : (s.buffer.descs q).dirty = true := by
        simpa [MgrState.call, Buffer.get_page_descriptor, hf] using h
      rw [hclean] at h2
      cases h2
    | cons pd rest =>
      by_cases hq : q = pd
      · subst hq
        cases hw : event.is_write_fault
        · simp [MgrState.call, Buffer.get_page_descriptor, hf, hw, Buffer.modify,
            Buffer.mark_page_present, PageDescriptor.set_state_filling, hclean] at h
        · simp [MgrState.call, Buffer.get_page_descriptor, hf, hw, Buffer.modify,
            Buffer.mark_page_present, PageDescriptor.set_state_filling,
            PageDescriptor.mark_page_dirty]
      · have h2 : (s.buffer.descs q).dirty = true := by
          cases hw : event.is_write_fault <;>
            simpa [MgrState.call, Buffer.get_page_descriptor, hf, hw, Buffer.modify,
              Buffer.mark_page_present, hq] using h
        rw [hclean] at h2
        cases h2

theorem threshold_yield_dirty (env : Nat → Buffer → Buffer) (s : MgrState) (q : Nat)
    (henv : ∀ t b p, ((env t b).descs p).dirty = true → (b.descs p).dirty = true)
    (h : ((threshold_yield env s).buffer.descs q).dirty = true) :
    (s.buffer.descs q).dirty = true := by
  unfold threshold_yield at h
  split at h
  · exact henv _ _ _ h
  · exact h

theorem processEvent_dirty_set (env : Nat → Buffer → Buffer) (m_store : Nat) (s : MgrState)
    (event : PageEvent) (q : Nat)
    (henv : ∀ t b p, ((env t b).descs p).dirty = true → (b.descs p).dirty = true)
    (hclean : (s.buffer.descs q).dirty = false)
    (h : ((processEvent env m_store s event).buffer.descs q).dirty = true) :
    event.is_write_fault = true ∧
      (processEvent env m_store s event).buffer.present_index event.aligned_page_address =
        some q := by
  unfold processEvent at h ⊢
  by_cases hb : s.blocked = true
  · simp only [hb, if_true] at h
    rw [hclean] at h
    cases h
  · simp only [hb, if_false] at h ⊢
    have hy : ((threshold_yield env s).buffer.descs q).dirty = false := by
      cases hd : ((threshold_yield env s).buffer.descs q).dirty
      · rfl
      · have := threshold_yield_dirty env s q henv hd
        rw [hclean] at this
        cases this
    exact classify_dirty_set m_store (threshold_yield env s) event q hy h

theorem processEvents_dirty_set (env : Nat → Buffer → Buffer) (m_store : Nat) (q : Nat)
    (henv : ∀ t b p, ((env t b).descs p).dirty = true → (b.descs p).dirty = true)
    (pe : List PageEvent) :
    ∀ s : MgrState, (s.buffer.descs q).dirty = false →
      ((processEvents env m_store s pe).buffer.descs q).dirty = true →
      ∃ pre e post, pe = pre ++ e :: post ∧ e.is_write_fault = true ∧
        (processEvents env m_store s (pre ++ [e])).buffer.present_index
          e.aligned_page_address = some q := by
  induction pe with
  | nil =>
    intro s hclean h
    simp only [processEvents, List.foldl_nil] at h
    rw [hclean] at h
    cases h
  | cons e es ih =>
    intro s hclean h
    cases hd : ((processEvent env m_store s e).buffer.descs q).dirty
    · rw [processEvents_cons] at h
      obtain ⟨pre, e1, post, hpe, hw, hidx⟩ := ih (processEvent env m_store s e) hd h
      refine ⟨e :: pre, e1, post, by simp [hpe], hw, ?_⟩
      rw [List.cons_append, processEvents_cons]
      exact hidx
    · obtain ⟨hw, hidx⟩ := processEvent_dirty_set env m_store s e q henv hclean hd
      refine ⟨[], e, es, rfl, hw, ?_⟩
      rw [List.nil_append, processEvents_cons]
      exact hidx

/-- C11: the coordinator sets a dirty flag only for a write fault, on the
descriptor that then holds the page of that event, and it never clears one.
In one event: a descriptor dirty at the lookup is dirty after the event, and a
descriptor clean at the lookup and dirty after it is the descriptor of the
event's page, the event being a write fault.  In one batch, the other threads
setting no dirty flag: a descriptor clean before the batch and dirty after it
is, right after some write fault of the batch, the descriptor of that fault's
page. -/
theorem dirty_only_by_write_fault (env : Nat → Buffer → Buffer) (m_store : Nat) :
    (∀ (s : MgrState) (event : PageEvent) (q : Nat), s.blocked = false →
      (((threshold_yield env s).buffer.descs q).dirty = true →
        ((processEvent env m_store s event).buffer.descs q).dirty = true) ∧
      (((threshold_yield env s).buffer.descs q).dirty = false →
        ((processEvent env m_store s event).buffer.descs q).dirty = true →
        event.is_write_fault = true ∧
          (processEvent env m_store s event).buffer.page_already_present
            event.aligned_page_address = some q)) ∧
    (∀ (s : MgrState) (pe : List PageEvent) (q : Nat),
      (∀ t b p, ((env t b).descs p).dirty = true → (b.descs p).dirty = true) →
      (s.buffer.descs q).dirty = false →
      ((processBatch env m_store s pe).buffer.descs q).dirty = true →
      ∃ pre e post, pe = pre ++ e :: post ∧ e.is_write_fault = true ∧
        (processEvents env m_store (s.call Call.lock) (pre ++ [e])).buffer.page_already_present
          e.aligned_page_address = some q) := by
  constructor
  · intro s event q hrun
    have hp : processEvent env m_store s event =
        classify m_store (threshold_yield env s) event := by
      simp [processEvent, hrun]
    rw [hp]
    exact ⟨classify_dirty_kept m_store (threshold_yield env s) event q,
      classify_dirty_set m_store (threshold_yield env s) event q⟩
  · intro s pe q henv hclean h
    have hb : (processBatch env m_store s pe).buffer =
        (processEvents env m_store (s.call Call.lock) pe).buffer := by
      by_cases hq : (processEvents env m_store (s.call Call.lock) pe).blocked = true
      · simp [processBatch, hq]
      · have hp : processBatch env m_store s pe =
            (processEvents env m_store (s.call Call.lock) pe).call Call.unlock := by
          simp [processBatch, hq]
        rw [hp]
        rfl
    rw [hb] at h
    exact processEvents_dirty_set env m_store q henv pe (s.call Call.lock) hclean h

/-- C11 at a concrete input: the batch of a read fault on page 4096 and a
write fault on page 12288 on `sampleState`; descriptor 2, clean before, is
dirty after the batch. -/
theorem dirty_only_by_write_fault_witness :
    ∃ pre e post, [(⟨4096, false⟩ : PageEvent), ⟨12288, true⟩] = pre ++ e :: post ∧
      e.is_write_fault = true ∧
      (processEvents quietEnv 7 (sampleState.call Call.lock)
        (pre ++ [e])).buffer.page_already_present e.aligned_page_address = some 2 :=
  (dirty_only_by_write_fault quietEnv 7).2 sampleState [⟨4096, false⟩, ⟨12288, true⟩] 2
    (fun _ _ _ h => h) rfl rfl

/-! ## The pool of the RPC server -/

theorem pool_find_erase_self (pool : List (CString × RemoteMemoryObject)) (id : CString) :
    pool_find (pool_erase pool id) id = none := by
  simp [pool_find, pool_erase, List.find?_eq_none, List.mem_filter]

theorem pool_find_erase_other (pool : List (CString × RemoteMemoryObject)) (id k : CString)
    (hk : k.addr ≠ id.addr) :
    pool_find (pool_erase pool id) k = pool_find pool k := by
  induction pool with
  | nil => rfl
  | cons e rest ih =>
    unfold pool_find pool_erase at ih ⊢
    by_cases he : e.1.addr = id.addr
    · have hek : ¬ e.1.addr = k.addr := by
        rw [he]
        exact fun h => hk h.symm
      have hik : ¬ id.addr = k.addr := fun h => hk h.symm
      simp [List.filter_cons, he, List.find?_cons, hik, ih]
    · by_cases hek : e.1.addr = k.addr
      · simp [List.filter_cons, List.find?_cons, hek, hk]
      · simp [List.filter_cons, he, List.find?_cons, hek, ih]

theorem pool_erase_of_find_none (pool : List (CString × RemoteMemoryObject)) (id : CString)
    (h : pool_find pool id = none) :
    pool_erase pool id = pool := by
  unfold pool_find at h
  unfold pool_erase
  rw [List.filter_eq_self]
  intro e he
  have := List.find?_eq_none.1 h e he
  simpa using this

theorem pool_erase_emplace (pool : List (CString × RemoteMemoryObject)) (id : CString)
    (obj : RemoteMemoryObject) (h : pool_find pool id = none) :
    pool_erase (pool_emplace pool id obj) id = pool := by
  induction pool with
  | nil => simp [pool_emplace, pool_erase]
  | cons e rest ih =>
    have hall := pool_erase_of_find_none (e :: rest) id h
    have he : ¬ e.1.addr = id.addr := by
      intro hc
      simp [pool_find, List.find?_cons, hc] at h
    have hrest : pool_find rest id = none := by
      simpa [pool_find, List.find?_cons, he] using h
    unfold pool_emplace
    by_cases hlt : id.addr < e.1.addr
    · simp only [hlt, if_true]
      unfold pool_erase at hall ⊢
      rw [List.filter_cons]
      simp only [bne_self_eq_false, Bool.false_eq_true, if_false]
      exact hall
    · have hne : ¬ id.addr = e.1.addr := fun hc => he hc.symm
      simp only [hlt, hne, if_false]
      have ih2 := ih hrest
      unfold pool_erase at ih2 ⊢
      rw [List.filter_cons]
      simp [he, ih2]

theorem pool_erase_length (pool : List (CString × RemoteMemoryObject)) (id : CString)
    (e : CString × RemoteMemoryObject) (hord : poolOrdered pool)
    (h : pool_find pool id = some e) :
    (pool_erase pool id).length + 1 = pool.length := by
  induction pool with
  | nil => simp [pool_find] at h
  | cons a rest ih =>
    have hord2 : (∀ b ∈ rest, a.1.addr < b.1.addr) ∧ poolOrdered rest := by
      simpa [poolOrdered] using hord
    by_cases ha : a.1.addr = id.addr
    · have hnone : pool_find rest id = none := by
        unfold pool_find
        rw [List.find?_eq_none]
        intro b hb
        have := hord2.1 b hb
        simp
        omega
      have hrest := pool_erase_of_find_none rest id hnone
      unfold pool_erase at hrest ⊢
      simp [List.filter_cons, ha, hrest]
    · have hfind : pool_find rest id = some e := by
        simpa [pool_find, List.find?_cons, ha] using h
      have ih2 := ih hord2.2 hfind
      unfold pool_erase at ih2 ⊢
      simp [List.filter_cons, ha, ih2]

theorem pool_erase_ordered (pool : List (CString × RemoteMemoryObject)) (id : CString)
    (hord : poolOrdered pool) :
    poolOrdered (pool_erase pool id) :=
  List.Pairwise.filter _ hord

theorem server_delete_resource_by_address :
    (∀ (s : ServerState) (id : CString) (e : CString × RemoteMemoryObject),
      pool_find s.remote_memory_pool id = some e →
      ∃ s1, server_delete_resource s id = Ret.returned 0 s1 ∧
        s1.remote_memory_pool = pool_erase s.remote_memory_pool id ∧
        pool_find s1.remote_memory_pool id = none ∧
        (∀ k : CString, k.addr ≠ id.addr →
          pool_find s1.remote_memory_pool k = pool_find s.remote_memory_pool k) ∧
        (poolOrdered s.remote_memory_pool →
          poolOrdered s1.remote_memory_pool ∧
            s1.remote_memory_pool.length + 1 = s.remote_memory_pool.length) ∧
        (s1.remote_memory_pool = [] → s1.server_fini_calls = s.server_fini_calls + 1) ∧
        (s1.remote_memory_pool ≠ [] → s1.server_fini_calls = s.server_fini_calls)) ∧
    (∀ (error_raises : Bool) (s : ServerState) (id : CString) (ptr rsize : Nat),
      pool_find s.remote_memory_pool id = none →
      ∃ s1 s2, server_add_resource error_raises s id ptr rsize = Ret.returned 0 s1 ∧
        server_delete_resource s1 id = Ret.returned 0 s2 ∧
        s2.remote_memory_pool = s.remote_memory_pool) := by
  have hdel : ∀ (s : ServerState) (id : CString) (e : CString × RemoteMemoryObject),
      pool_find s.remote_memory_pool id = some e →
      ∃ s1, server_delete_resource s id = Ret.returned 0 s1 ∧
        s1.remote_memory_pool = pool_erase s.remote_memory_pool id ∧
        (s1.remote_memory_pool = [] → s1.server_fini_calls = s.server_fini_calls + 1) ∧
        (s1.remote_memory_pool ≠ [] → s1.server_fini_calls = s.server_fini_calls) := by
    intro s id e h
    by_cases hlen : (pool_erase s.remote_memory_pool id).length = 0
    · refine ⟨server_fini { s with remote_memory_pool := pool_erase s.remote_memory_pool id },
        ?_, rfl, fun _ => rfl, ?_⟩
      · simp [server_delete_resource, h, hlen]
      · intro hne
        exact absurd (List.length_eq_zero.1 hlen) hne
    · refine ⟨{ s with remote_memory_pool := pool_erase s.remote_memory_pool id },
        ?_, rfl, ?_, fun _ => rfl⟩
      · simp [server_delete_resource, h, hlen]
      · intro hnil
        have hnil2 : pool_erase s.remote_memory_pool id = [] := hnil
        exact absurd (by rw [hnil2]; rfl) hlen
  constructor
  · intro s id e h
    obtain ⟨s1, h1, h2, h3, h4⟩ := hdel s id e h
    refine ⟨s1, h1, h2, ?_, ?_, ?_, h3, h4⟩
    · rw [h2]
      exact pool_find_erase_self _ _
    · intro k hk
      rw [h2]
      exact pool_find_erase_other _ _ _ hk
    · intro hord
      rw [h2]
      exact ⟨pool_erase_ordered _ _ hord, pool_erase_length _ _ e hord h⟩
  · intro error_raises s id ptr rsize h
    have hfind : ∃ e, pool_find (pool_emplace s.remote_memory_pool id
        { ptr := ptr, rsize := rsize }) id = some e := by
      cases hf : pool_find (pool_emplace s.remote_memory_pool id
          { ptr := ptr, rsize := rsize }) id with
      | some e => exact ⟨e, rfl⟩
      | none =>
        have h1 := pool_erase_of_find_none _ _ hf
        rw [pool_erase_emplace _ _ _ h] at h1
        have h2 : pool_find s.remote_memory_pool id =
            pool_find (pool_emplace s.remote_memory_pool id
              { ptr := ptr, rsize := rsize }) id := by
          rw [← h1]
        -- the pool with the new entry would be the old pool: the entry is in it
        exfalso
        have hlen : (pool_emplace s.remote_memory_pool id
            { ptr := ptr, rsize := rsize }).length = s.remote_memory_pool.length := by
          rw [← h1]
        have hgrow : ∀ (pool : List (CString × RemoteMemoryObject)),
            pool_find pool id = none →
            (pool_emplace pool id { ptr := ptr, rsize := rsize }).length = pool.length + 1 := by
          intro pool
          induction pool with
          | nil => intro _; rfl
          | cons a rest ih =>
            intro hp
            have ha : ¬ a.1.addr = id.addr := by
              intro hc
              simp [pool_find, List.find?_cons, hc] at hp
            have hrest : pool_find rest id = none := by
              simpa [pool_find, List.find?_cons, ha] using hp
            unfold pool_emplace
            by_cases hlt : id.addr < a.1.addr
            · simp [hlt]
            · have hne : ¬ id.addr = a.1.addr := fun hc => ha hc.symm
              simp [hlt, hne, ih hrest]
        rw [hgrow _ h] at hlen
        omega
    obtain ⟨e, he⟩ := hfind
    obtain ⟨s2, h1, h2, _, _⟩ := hdel
      { s with remote_memory_pool :=
          pool_emplace s.remote_memory_pool id { ptr := ptr, rsize := rsize } } id e he
    refine ⟨_, s2, ?_, h1, ?_⟩
    · simp [server_add_resource, h]
    · rw [h2]
      exact pool_erase_emplace _ _ _ h

/-- C17 on `sampleServer`, which has published `arr_a` under the key address
100.  Deleting `arr_a` through an id in another buffer (address 200) does not
find the key, although the name is registered: the assertion of line 50 fails,
and the erase of line 51 would remove nothing.  Likewise after `arr_b` has been
added from a buffer at address 300, deleting `arr_b` through a buffer at
address 400 fails, so adding and deleting the same name does not give back the
pool from before. -/
theorem delete_compares_addresses :
    server_delete_resource sampleServer ⟨200, "arr_a"⟩ = Ret.aborted ∧
      pool_erase sampleServer.remote_memory_pool ⟨200, "arr_a"⟩ =
        sampleServer.remote_memory_pool ∧
      server_add_resource true sampleServer ⟨300, "arr_b"⟩ 131072 4096 =
        Ret.returned 0
          { sampleServer with
            remote_memory_pool :=
              [(⟨100, "arr_a"⟩, ⟨65536, 4096⟩), (⟨300, "arr_b"⟩, ⟨131072, 4096⟩)] } ∧
      server_delete_resource
        { sampleServer with
          remote_memory_pool :=
            [(⟨100, "arr_a"⟩, ⟨65536, 4096⟩), (⟨300, "arr_b"⟩, ⟨131072, 4096⟩)] }
        ⟨400, "arr_b"⟩ = Ret.aborted := by
  refine ⟨rfl, rfl, rfl, rfl⟩

/-! ## Names and key addresses -/

/-- C14 on `sampleServer`, which has published `arr_a` under the key address
100.  Adding `arr_a` again from another buffer (address 200) returns 0 and the
pool then holds two objects of that name; adding `arr_b` from the buffer at
address 100 fails, with the pool unchanged, though no object of that name is
registered. -/
theorem add_compares_addresses :
    server_add_resource true sampleServer ⟨200, "arr_a"⟩ 131072 4096 =
        Ret.returned 0
          { sampleServer with
            remote_memory_pool :=
              [(⟨100, "arr_a"⟩, ⟨65536, 4096⟩), (⟨200, "arr_a"⟩, ⟨131072, 4096⟩)] } ∧
      server_add_resource false sampleServer ⟨200, "arr_a"⟩ 131072 4096 =
        Ret.returned 0
          { sampleServer with
            remote_memory_pool :=
              [(⟨100, "arr_a"⟩, ⟨65536, 4096⟩), (⟨200, "arr_a"⟩, ⟨131072, 4096⟩)] } ∧
      server_add_resource true sampleServer ⟨100, "arr_b"⟩ 131072 4096 =
        Ret.raised sampleServer ∧
      server_add_resource false sampleServer ⟨100, "arr_b"⟩ 131072 4096 =
        Ret.returned (-1) sampleServer := by
  refine ⟨rfl, rfl, rfl, rfl⟩

theorem request_rpc_by_address (s : ServerState) (id : CString) (size : Nat) :
    (pool_find s.remote_memory_pool id = none →
      umap_server_request_rpc s id size =
        RpcResult.responded RpcResponse.RPC_RESPONSE_REQ_UNAVAIL none s) ∧
      (∀ e, pool_find s.remote_memory_pool id = some e →
        umap_server_request_rpc s id size =
          RpcResult.responded
            (if size = e.2.rsize then RpcResponse.RPC_RESPONSE_REQ_AVAIL
             else RpcResponse.RPC_RESPONSE_REQ_WRONG_SIZE) none s) := by
  constructor
  · intro h
    simp [umap_server_request_rpc, h]
  · intro e h
    by_cases hs : size = e.2.rsize
    · simp [umap_server_request_rpc, h, pool_index, hs]
    · simp [umap_server_request_rpc, h, pool_index, hs]

/-- C15 on `sampleServer`, which has published `arr_a` (4096 bytes) under the
key address 100.  The request for `arr_a` with the right size, its id in a
buffer at address 200, is answered RPC_RESPONSE_REQ_UNAVAIL; the same request
with the id at address 100 is answered RPC_RESPONSE_REQ_AVAIL.  The pool is
unchanged both times. -/
theorem request_compares_addresses :
    umap_server_request_rpc sampleServer ⟨200, "arr_a"⟩ 4096 =
        RpcResult.responded RpcResponse.RPC_RESPONSE_REQ_UNAVAIL none sampleServer ∧
      umap_server_request_rpc sampleServer ⟨100, "arr_a"⟩ 4096 =
        RpcResult.responded RpcResponse.RPC_RESPONSE_REQ_AVAIL none sampleServer := by
  refine ⟨rfl, rfl⟩

/-! ## The range check of `get_memory_object` -/

theorem get_memory_object_no_wrap (error_raises : Bool) (s s1 : ServerState) (id : CString)
    (offset size : Nat) (e : CString × RemoteMemoryObject)
    (hreg : pool_find s.remote_memory_pool id = some e)
    (hsum : offset + size < SIZE_T_MOD)
    (h : get_memory_object error_raises s id offset size = Ret.returned e.2.ptr s1) :
    offset ≤ e.2.rsize ∧ size ≤ e.2.rsize - offset := by
  unfold get_memory_object at h
  rw [hreg] at h
  by_cases hp : e.2.ptr = 0
  · simp [hp] at h
  · by_cases hle : (offset + size) % SIZE_T_MOD ≤ e.2.rsize
    · rw [Nat.mod_eq_of_lt hsum] at hle
      omega
    · simp [hp, hle] at h

/-- C16 on `sampleServer` (object of 4096 bytes at address 65536): for
offset 2^64 - 1 and size 2 the `size_t` sum of line 85 is 1, the assertion
holds and `get_memory_object` returns the base pointer, though the offset is
beyond the object; the read and the write handler then transfer the 2 bytes
from address 65535 on, one byte before the object. -/
theorem wrapped_range_accepted :
    get_memory_object true sampleServer ⟨100, "arr_a"⟩ (2 ^ 64 - 1) 2 =
        Ret.returned 65536 sampleServer ∧
      ¬ (2 ^ 64 - 1 ≤ 4096) ∧
      umap_server_read_rpc true sampleServer ⟨100, "arr_a"⟩ (2 ^ 64 - 1) 2 =
        RpcResult.responded RpcResponse.RPC_RESPONSE_READ_DONE
          (some { start := 65535, length := 2, push := true }) sampleServer ∧
      umap_server_write_rpc true sampleServer ⟨100, "arr_a"⟩ (2 ^ 64 - 1) 2 =
        RpcResult.responded RpcResponse.RPC_RESPONSE_WRITE_DONE
          (some { start := 65535, length := 2, push := false }) sampleServer := by
  refine ⟨?_, by decide, ?_, ?_⟩
  · simp [get_memory_object, pool_find, sampleServer, SIZE_T_MOD]
  · simp [umap_server_read_rpc, get_memory_object, pool_find, sampleServer, SIZE_T_MOD,
      read_rpc_fini]
  · simp [umap_server_write_rpc, get_memory_object, pool_find, sampleServer, SIZE_T_MOD]

/-! ## Teardown -/

/-- C13: the destructor of a `FillManager` stops the fault listener, stops the
coordinator thread pool, destroys the fill workers, destroys the flush manager,
destroys the buffer and destroys the listener object, in this order.  In every
state it runs through, the coordinator is stopped only with the listener
stopped, a worker pool is gone only with the coordinator stopped, the buffer is
gone only with both worker pools gone, and the listener object is gone only
with the buffer gone; every part is stopped or destroyed before the objects it
works on.  The coordinator leaves its loop on the sentinel batch that the
stopped listener delivers. -/
theorem teardown_order :
    FillManager.destructor =
        [TeardownCall.stop_uffd, TeardownCall.stop_thread_pool,
         TeardownCall.delete_fill_workers, TeardownCall.delete_flush_manager,
         TeardownCall.delete_buffer, TeardownCall.delete_uffd] ∧
      (∀ p ∈ teardownStates FillManager.constructed FillManager.destructor,
        (p.coordinator_running = false → p.listening = false) ∧
        (p.fill_workers = false → p.coordinator_running = false) ∧
        (p.flush_manager = false → p.fill_workers = false) ∧
        (p.buffer = false → p.fill_workers = false ∧ p.flush_manager = false) ∧
        (p.uffd = false → p.buffer = false)) ∧
      (∀ c ∈ FillManager.destructor, ∀ u ∈ usedBy c,
        List.indexOf c FillManager.destructor < List.indexOf u FillManager.destructor) ∧
      (teardownStates FillManager.constructed FillManager.destructor).getLast? =
        some { listening := false, coordinator_running := false, fill_workers := false,
               flush_manager := false, buffer := false, uffd := false } ∧
      (∀ (env : Nat → Buffer → Buffer) (m_store : Nat) (s : MgrState) (es : List PageEvent)
        (rest : List (List PageEvent)),
        (FillMgr env m_store ((⟨0, false⟩ :: es) :: rest) s).1 = Outcome.exited) := by
  refine ⟨rfl, by decide, by decide, by decide, ?_⟩
  intro env m_store s es rest
  rw [FillMgr_shutdown_batch env m_store (⟨0, false⟩ :: es) rest s rfl]

/-! ## The mapped region -/

theorem faultService_resident_kept (m_store : Nat) (m : Mapping) (e : PageEvent) (pd : Nat)
    (hres : m.buffer.present_index e.aligned_page_address = some pd)
    (hspur : e.is_write_fault = false ∨ (m.buffer.descs pd).dirty = true) :
    faultService m_store m e = some m := by
  have hy : (threshold_yield quietEnv
      { buffer := m.buffer, trace := [], blocked := false }).buffer = m.buffer := by
    unfold threshold_yield
    split <;> rfl
  have hstep := processEvent_spurious quietEnv m_store
    { buffer := m.buffer, trace := [], blocked := false } e pd rfl
    (by rw [hy]; exact hres) (by rw [hy]; exact hspur)
  unfold faultService
  simp only [hstep]
  have hb : ((threshold_yield quietEnv
      { buffer := m.buffer, trace := [], blocked := false }).call
        (Call.page_already_present e.aligned_page_address (some pd))).blocked = false := by
    show (threshold_yield quietEnv _).blocked = false
    rw [threshold_yield_blocked]
  have ht : fillSent ((threshold_yield quietEnv
      { buffer := m.buffer, trace := [], blocked := false }).call
        (Call.page_already_present e.aligned_page_address (some pd))).trace = [] := by
    show fillSent ((threshold_yield quietEnv _).trace ++ _) = []
    rw [fillSent_append, threshold_yield_fillSent]
    rfl
  have hbuf : ((threshold_yield quietEnv
      { buffer := m.buffer, trace := [], blocked := false }).call
        (Call.page_already_present e.aligned_page_address (some pd))).buffer = m.buffer := hy
  simp [hb, ht, hbuf]

theorem threshold_yield_quiet_buffer (s : MgrState) :
    (threshold_yield quietEnv s).buffer = s.buffer := by
  unfold threshold_yield
  split <;> rfl

theorem faultService_upgrade (m_store : Nat) (m : Mapping) (e : PageEvent) (pd : Nat)
    (hres : m.buffer.present_index e.aligned_page_address = some pd)
    (hw : e.is_write_fault = true) (hclean : (m.buffer.descs pd).dirty = false) :
    faultService m_store m e =
      some { m with
        buffer := ((m.buffer.modify pd PageDescriptor.mark_page_dirty).modify pd
          PageDescriptor.set_state_updating).modify pd PageDescriptor.set_state_present } := by
  have hy := threshold_yield_quiet_buffer { buffer := m.buffer, trace := [], blocked := false }
  have hstep := processEvent_upgrade quietEnv m_store
    { buffer := m.buffer, trace := [], blocked := false } e pd rfl
    (by rw [hy]; exact hres) hw (by rw [hy]; exact hclean)
  unfold faultService
  simp only [hstep, hy, threshold_yield_blocked, fillSent_append, threshold_yield_fillSent]
  simp [fillSent, fillWorker]

theorem faultService_full (m_store : Nat) (m : Mapping) (e : PageEvent)
    (hres : m.buffer.present_index e.aligned_page_address = none)
    (hfree : m.buffer.free_list = []) :
    faultService m_store m e = none := by
  have hy := threshold_yield_quiet_buffer { buffer := m.buffer, trace := [], blocked := false }
  have hres2 : (threshold_yield quietEnv
      { buffer := m.buffer, trace := [], blocked := false }).buffer.present_index
        e.aligned_page_address = none := by
    rw [hy]; exact hres
  have hfree2 : (threshold_yield quietEnv
      { buffer := m.buffer, trace := [], blocked := false }).buffer.free_list = [] := by
    rw [hy]; exact hfree
  simp [faultService, processEvent, classify, hres2, MgrState.call,
    Buffer.get_page_descriptor, hfree2, Buffer.page_already_present]

theorem processEvent_alloc (env : Nat → Buffer → Buffer) (m_store : Nat) (s : MgrState)
    (e : PageEvent) (pd : Nat) (rest : List Nat)
    (hrun : s.blocked = false)
    (hres : (threshold_yield env s).buffer.present_index e.aligned_page_address = none)
    (hfree : (threshold_yield env s).buffer.free_list = pd :: rest) :
    processEvent env m_store s e =
      { buffer :=
          { descs := fun p =>
              if p = pd then
                { page_addr := e.aligned_page_address, state := State.FILLING,
                  dirty := (e.is_write_fault || ((threshold_yield env s).buffer.descs pd).dirty),
                  deferred := ((threshold_yield env s).buffer.descs pd).deferred }
              else (threshold_yield env s).buffer.descs p
            present_index := fun x =>
              if x = e.aligned_page_address then some pd
              else (threshold_yield env s).buffer.present_index x
            free_list := rest
            present_queue := (threshold_yield env s).buffer.present_queue
            low_watermark := (threshold_yield env s).buffer.low_watermark
            high_watermark := (threshold_yield env s).buffer.high_watermark }
        trace := (threshold_yield env s).trace ++
          [Call.page_already_present e.aligned_page_address none,
           Call.get_page_descriptor e.aligned_page_address (some pd),
           Call.set_state_filling pd, Call.mark_page_present pd] ++
          (if e.is_write_fault = true then [Call.mark_page_dirty pd] else []) ++
          [Call.fill_send_work { type := none, page_desc := some pd, store := m_store }]
        blocked := false } := by
  have hb : (threshold_yield env s).blocked = false := by
    rw [threshold_yield_blocked]; exact hrun
  cases hw : e.is_write_fault
  · simp [processEvent, classify, hrun, hres, MgrState.call, hw, Buffer.get_page_descriptor,
      hfree, Buffer.modify, Buffer.mark_page_present, Buffer.page_already_present,
      PageDescriptor.set_state_filling, hb]
    funext p
    by_cases hp : p = pd
    · simp [hp]
    · simp [hp]
  · simp [processEvent, classify, hrun, hres, MgrState.call, hw, Buffer.get_page_descriptor,
      hfree, Buffer.modify, Buffer.mark_page_present, Buffer.page_already_present,
      PageDescriptor.set_state_filling, PageDescriptor.mark_page_dirty, hb]
    funext p
    by_cases hp : p = pd
    · simp [hp]
    · simp [hp]

theorem faultService_alloc (m_store : Nat) (m : Mapping) (e : PageEvent) (pd : Nat)
    (rest : List Nat)
    (hres : m.buffer.present_index e.aligned_page_address = none)
    (hfree : m.buffer.free_list = pd :: rest) :
    ∃ m1, faultService m_store m e = some m1 ∧
      m1.slots = m.slots ∧ m1.store = m.store ∧
      (∀ x, m1.core x = m.core x ∨ (x = e.aligned_page_address ∧ m1.core x = m.store x)) ∧
      m1.buffer.present_index =
        (fun x => if x = e.aligned_page_address then some pd else m.buffer.present_index x) ∧
      m1.buffer.free_list = rest ∧
      (m1.buffer.descs pd).page_addr = e.aligned_page_address ∧
      (m1.buffer.descs pd).dirty = (e.is_write_fault || (m.buffer.descs pd).dirty) ∧
      (∀ q, q ≠ pd → (m1.buffer.descs q).dirty = (m.buffer.descs q).dirty ∧
        (m1.buffer.descs q).page_addr = (m.buffer.descs q).page_addr) := by
  have hy := threshold_yield_quiet_buffer { buffer := m.buffer, trace := [], blocked := false }
  have hstep := processEvent_alloc quietEnv m_store
    { buffer := m.buffer, trace := [], blocked := false } e pd rest rfl
    (by rw [hy]; exact hres) (by rw [hy]; exact hfree)
  have hsent : fillSent ((threshold_yield quietEnv
      { buffer := m.buffer, trace := [], blocked := false }).trace ++
        [Call.page_already_present e.aligned_page_address none,
         Call.get_page_descriptor e.aligned_page_address (some pd),
         Call.set_state_filling pd, Call.mark_page_present pd] ++
        (if e.is_write_fault = true then [Call.mark_page_dirty pd] else []) ++
        [Call.fill_send_work { type := none, page_desc := some pd, store := m_store }]) =
      [{ type := none, page_desc := some pd, store := m_store }] := by
    cases hw : e.is_write_fault <;>
      simp [fillSent_append, threshold_yield_fillSent, fillSent]
  have hfs : faultService m_store m e =
      some (fillWorker
        { m with buffer := (processEvent quietEnv m_store
            { buffer := m.buffer, trace := [], blocked := false } e).buffer }
        { type := none, page_desc := some pd, store := m_store }) := by
    unfold faultService
    simp only [hstep, hsent]
    simp
  refine ⟨_, hfs, ?_⟩
  rw [hstep, hy]
  by_cases hs : m_store = 0
  · simp [fillWorker, hs, Buffer.modify, PageDescriptor.set_state_present]
    intro q hq
    simp [hq]
  · simp [fillWorker, hs, Buffer.mark_present, Buffer.modify, PageDescriptor.set_state_present]
    refine ⟨?_, ?_⟩
    · intro x
      by_cases hx : x = e.aligned_page_address
      · simp [hx]
      · simp [hx]
    · intro q hq
      simp [hq]

theorem core_eq_store_of_not_resident (m : Mapping) (a : Nat)
    (hinv : modifiedAreDirty m) (hres : m.buffer.present_index a = none) :
    m.core a = m.store a := by
  by_contra hne
  obtain ⟨pd, hpd, _⟩ := hinv a hne
  rw [hres] at hpd
  cases hpd

theorem faultService_alloc_inv (m m1 : Mapping) (e : PageEvent) (pd : Nat)
    (rest : List Nat) (hwf : wellFormed m) (hinv : modifiedAreDirty m)
    (hres : m.buffer.present_index e.aligned_page_address = none)
    (hfree : m.buffer.free_list = pd :: rest)
    (hslots : m1.slots = m.slots) (hstore : m1.store = m.store)
    (hcore : ∀ x, m1.core x = m.core x ∨ (x = e.aligned_page_address ∧ m1.core x = m.store x))
    (hidx : m1.buffer.present_index =
      (fun x => if x = e.aligned_page_address then some pd else m.buffer.present_index x))
    (hfl : m1.buffer.free_list = rest)
    (haddr : (m1.buffer.descs pd).page_addr = e.aligned_page_address)
    (hdirty : (m1.buffer.descs pd).dirty = (e.is_write_fault || (m.buffer.descs pd).dirty))
    (hframe : ∀ q, q ≠ pd → (m1.buffer.descs q).dirty = (m.buffer.descs q).dirty ∧
      (m1.buffer.descs q).page_addr = (m.buffer.descs q).page_addr) :
    wellFormed m1 ∧ modifiedAreDirty m1 ∧ m1.core = m.core ∧
      m1.buffer.present_index e.aligned_page_address = some pd ∧
      (m1.buffer.descs pd).dirty = e.is_write_fault := by
  obtain ⟨w1, w2, w3⟩ := hwf
  have hpdfree : pd ∈ m.buffer.free_list := by rw [hfree]; exact List.mem_cons_self _ _
  have hnd : pd ∉ rest ∧ rest.Nodup := by
    rw [hfree] at w3
    exact List.nodup_cons.1 w3
  have hcoreeq : m1.core = m.core := by
    funext x
    rcases hcore x with h | ⟨hx, h⟩
    · exact h
    · rw [h, hx]
      exact (core_eq_store_of_not_resident m _ hinv hres).symm
  have hold : (m.buffer.descs pd).dirty = false := (w2 pd hpdfree).2
  refine ⟨⟨?_, ?_, ?_⟩, ?_, hcoreeq, ?_, ?_⟩
  · intro a q hq
    rw [hidx] at hq
    by_cases ha : a = e.aligned_page_address
    · simp only [ha, if_true, Option.some.injEq] at hq
      subst hq
      rw [hslots, hfl, ha]
      exact ⟨(w2 _ hpdfree).1, haddr, hnd.1⟩
    · simp only [ha, if_false] at hq
      obtain ⟨h1, h2, h3⟩ := w1 a q hq
      have hqp : q ≠ pd := fun h => h3 (h ▸ hpdfree)
      rw [hslots, hfl, (hframe q hqp).2]
      refine ⟨h1, h2, ?_⟩
      intro hmem
      exact h3 (by rw [hfree]; exact List.mem_cons_of_mem _ hmem)
  · intro q hq
    rw [hfl] at hq
    have hqf : q ∈ m.buffer.free_list := by rw [hfree]; exact List.mem_cons_of_mem _ hq
    have hqp : q ≠ pd := fun h => hnd.1 (h ▸ hq)
    rw [hslots, (hframe q hqp).1]
    exact w2 q hqf
  · rw [hfl]
    exact hnd.2
  · intro a ha
    rw [hcoreeq, hstore] at ha
    obtain ⟨q, hq, hd⟩ := hinv a ha
    have hane : a ≠ e.aligned_page_address := by
      intro h
      rw [h, hres] at hq
      cases hq
    have hqp : q ≠ pd := fun h => (w1 a q hq).2.2 (h ▸ hpdfree)
    refine ⟨q, ?_, ?_⟩
    · rw [hidx]
      simp [hane, hq]
    · rw [(hframe q hqp).1]
      exact hd
  · rw [hidx]
    simp
  · rw [hdirty, hold]
    simp

theorem appWrite_inv (m_store : Nat) (m : Mapping) (a v : Nat)
    (hwf : wellFormed m) (hinv : modifiedAreDirty m) :
    wellFormed (appWrite m_store m a v) ∧ modifiedAreDirty (appWrite m_store m a v) ∧
      (appWrite m_store m a v).slots = m.slots ∧
      (appWrite m_store m a v).store = m.store ∧
      ((appWrite m_store m a v).core = m.core ∨
        (appWrite m_store m a v).core = fun x => if x = a then v else m.core x) := by
  cases hidx : m.buffer.present_index a with
  | some pd =>
    cases hd : (m.buffer.descs pd).dirty
    · -- resident and clean: the write faults and the descriptor is upgraded
      have hwr : writable m a = false := by simp [writable, hidx, hd]
      have hfs := faultService_upgrade m_store m ⟨a, true⟩ pd hidx rfl hd
      have happ : appWrite m_store m a v =
          { m with
            buffer := ((m.buffer.modify pd PageDescriptor.mark_page_dirty).modify pd
              PageDescriptor.set_state_updating).modify pd PageDescriptor.set_state_present
            core := fun x => if x = a then v else m.core x } := by
        unfold appWrite
        simp only [hwr, Bool.false_eq_true, if_false, hfs]
      rw [happ]
      obtain ⟨w1, w2, w3⟩ := hwf
      refine ⟨⟨?_, ?_, w3⟩, ?_, rfl, rfl, Or.inr rfl⟩
      · intro x q hq
        obtain ⟨h1, h2, h3⟩ := w1 x q hq
        refine ⟨h1, ?_, h3⟩
        by_cases hqp : q = pd
        · simpa [Buffer.modify, hqp, PageDescriptor.mark_page_dirty,
            PageDescriptor.set_state_updating, PageDescriptor.set_state_present] using
            (hqp ▸ h2)
        · simpa [Buffer.modify, hqp] using h2
      · intro q hq
        have hqp : q ≠ pd := fun h => (w1 a pd hidx).2.2 (h ▸ hq)
        refine ⟨(w2 q hq).1, ?_⟩
        simpa [Buffer.modify, hqp] using (w2 q hq).2
      · intro x hx
        by_cases hxa : x = a
        · refine ⟨pd, by rw [hxa]; exact hidx, ?_⟩
          simp [Buffer.modify, PageDescriptor.mark_page_dirty,
            PageDescriptor.set_state_updating, PageDescriptor.set_state_present]
        · have hx2 : m.core x ≠ m.store x := by simpa [hxa] using hx
          obtain ⟨q, hq, hqd⟩ := hinv x hx2
          refine ⟨q, hq, ?_⟩
          by_cases hqp : q = pd
          · simp [Buffer.modify, hqp, PageDescriptor.mark_page_dirty,
              PageDescriptor.set_state_updating, PageDescriptor.set_state_present]
          · simpa [Buffer.modify, hqp] using hqd
    · -- resident and dirty: the page is writable
      have hwr : writable m a = true := by simp [writable, hidx, hd]
      have happ : appWrite m_store m a v =
          { m with core := fun x => if x = a then v else m.core x } := by
        unfold appWrite
        simp only [hwr, if_true]
      rw [happ]
      refine ⟨hwf, ?_, rfl, rfl, Or.inr rfl⟩
      intro x hx
      by_cases hxa : x = a
      · exact ⟨pd, by rw [hxa]; exact hidx, hd⟩
      · have hx2 : m.core x ≠ m.store x := by simpa [hxa] using hx
        exact hinv x hx2
  | none =>
    have hwr : writable m a = false := by simp [writable, hidx]
    cases hfl : m.buffer.free_list with
    | nil =>
      have happ : appWrite m_store m a v = m := by
        unfold appWrite
        simp only [hwr, Bool.false_eq_true, if_false,
          faultService_full m_store m ⟨a, true⟩ hidx hfl]
      rw [happ]
      exact ⟨hwf, hinv, rfl, rfl, Or.inl rfl⟩
    | cons pd rest =>
      obtain ⟨m1, hfs, h1, h2, h3, h4, h5, h6, h7, h8⟩ :=
        faultService_alloc m_store m ⟨a, true⟩ pd rest hidx hfl
      obtain ⟨i1, i2, i3, i4, i5⟩ := faultService_alloc_inv m m1 ⟨a, true⟩ pd rest
        hwf hinv hidx hfl h1 h2 h3 h4 h5 h6 h7 h8
      have happ : appWrite m_store m a v =
          { m1 with core := fun x => if x = a then v else m1.core x } := by
        unfold appWrite
        simp only [hwr, Bool.false_eq_true, if_false, hfs]
      rw [happ]
      refine ⟨i1, ?_, h1, h2, Or.inr (by rw [i3])⟩
      intro x hx
      by_cases hxa : x = a
      · exact ⟨pd, by rw [hxa]; exact i4, i5⟩
      · have hx2 : m1.core x ≠ m1.store x := by simpa [hxa] using hx
        exact i2 x hx2

theorem appRead_inv (m_store : Nat) (m : Mapping) (a : Nat)
    (hwf : wellFormed m) (hinv : modifiedAreDirty m) :
    wellFormed (appRead m_store m a) ∧ modifiedAreDirty (appRead m_store m a) ∧
      (appRead m_store m a).slots = m.slots ∧
      (appRead m_store m a).store = m.store ∧
      (appRead m_store m a).core = m.core := by
  cases hidx : m.buffer.present_index a with
  | some pd =>
    have happ : appRead m_store m a = m := by
      unfold appRead
      simp only [hidx]
    rw [happ]
    exact ⟨hwf, hinv, rfl, rfl, rfl⟩
  | none =>
    cases hfl : m.buffer.free_list with
    | nil =>
      have happ : appRead m_store m a = m := by
        unfold appRead
        simp only [hidx, faultService_full m_store m ⟨a, false⟩ hidx hfl]
      rw [happ]
      exact ⟨hwf, hinv, rfl, rfl, rfl⟩
    | cons pd rest =>
      obtain ⟨m1, hfs, h1, h2, h3, h4, h5, h6, h7, h8⟩ :=
        faultService_alloc m_store m ⟨a, false⟩ pd rest hidx hfl
      obtain ⟨i1, i2, i3, _, _⟩ := faultService_alloc_inv m m1 ⟨a, false⟩ pd rest
        hwf hinv hidx hfl h1 h2 h3 h4 h5 h6 h7 h8
      have happ : appRead m_store m a = m1 := by
        unfold appRead
        simp only [hidx, hfs]
      rw [happ]
      exact ⟨i1, i2, h1, h2, i3⟩

theorem evictPage_inv (write_ok : Nat → Bool) (m : Mapping) (a : Nat)
    (hwf : wellFormed m) (hinv : modifiedAreDirty m) :
    wellFormed (evictPage write_ok m a) ∧ modifiedAreDirty (evictPage write_ok m a) ∧
      (evictPage write_ok m a).slots = m.slots ∧
      (evictPage write_ok m a).core = m.core := by
  cases hidx : m.buffer.present_index a with
  | none =>
    have happ : evictPage write_ok m a = m := by
      unfold evictPage
      simp only [hidx]
    rw [happ]
    exact ⟨hwf, hinv, rfl, rfl⟩
  | some pd =>
    by_cases hst : (m.buffer.descs pd).state = State.PRESENT
    · by_cases hfail : (m.buffer.descs pd).dirty = true ∧ write_ok a = false
      · have happ : evictPage write_ok m a = m := by
          unfold evictPage
          simp only [hidx, hst, hfail, and_self, if_true]
        rw [happ]
        exact ⟨hwf, hinv, rfl, rfl⟩
      · have happ : evictPage write_ok m a =
            { m with
              store := fun x =>
                if x = a ∧ (m.buffer.descs pd).dirty = true then m.core x else m.store x
              buffer :=
                { m.buffer with
                  descs := fun p =>
                    if p = pd then
                      { page_addr := (m.buffer.descs pd).page_addr, state := State.FREE,
                        dirty := false, deferred := false }
                    else m.buffer.descs p
                  present_index := fun x => if x = a then none else m.buffer.present_index x
                  present_queue := m.buffer.present_queue.filter (fun p => p != pd)
                  free_list := m.buffer.free_list ++ [pd] } } := by
          unfold evictPage
          simp only [hidx, hst, hfail, if_true, if_false]
        rw [happ]
        obtain ⟨w1, w2, w3⟩ := hwf
        obtain ⟨p1, p2, p3⟩ := w1 a pd hidx
        refine ⟨⟨?_, ?_, ?_⟩, ?_, rfl, rfl⟩
        · intro x q hq
          by_cases hxa : x = a
          · simp [hxa] at hq
          · have hq2 : m.buffer.present_index x = some q := by simpa [hxa] using hq
            obtain ⟨h1, h2, h3⟩ := w1 x q hq2
            have hqp : q ≠ pd := by
              intro h
              rw [h, p2] at h2
              exact hxa h2.symm
            refine ⟨h1, by simpa [hqp] using h2, ?_⟩
            simp [h3, hqp]
        · intro q hq
          rcases List.mem_append.1 hq with hq1 | hq1
          · have hqp : q ≠ pd := fun h => p3 (h ▸ hq1)
            exact ⟨(w2 q hq1).1, by simpa [hqp] using (w2 q hq1).2⟩
          · have hqp : q = pd := by simpa using hq1
            rw [hqp]
            exact ⟨p1, by simp⟩
        · show (m.buffer.free_list ++ [pd]).Nodup
          rw [List.nodup_append]
          refine ⟨w3, List.nodup_singleton pd, ?_⟩
          intro x hx1 hx2
          have hxp : x = pd := by simpa using hx2
          exact p3 (hxp ▸ hx1)
        · intro x hx
          by_cases hxa : x = a
          · exfalso
            cases hd : (m.buffer.descs pd).dirty
            · have hx2 : m.core a ≠ m.store a := by simpa [hxa, hd] using hx
              obtain ⟨q, hq, hqd⟩ := hinv a hx2
              rw [hidx] at hq
              cases hq
              rw [hd] at hqd
              cases hqd
            · simp [hxa, hd] at hx
          · have hx2 : m.core x ≠ m.store x := by simpa [hxa] using hx
            obtain ⟨q, hq, hqd⟩ := hinv x hx2
            have hqp : q ≠ pd := by
              intro h
              have h2 := (w1 x q hq).2.1
              rw [h, p2] at h2
              exact hxa h2.symm
            exact ⟨q, by simp [hxa, hq], by simpa [hqp] using hqd⟩
    · have happ : evictPage write_ok m a = m := by
        unfold evictPage
        simp only [hidx, hst, if_false]
      rw [happ]
      exact ⟨hwf, hinv, rfl, rfl⟩

theorem stepOp_inv (m_store : Nat) (write_ok : Nat → Bool) (m : Mapping) (op : MapOp)
    (hwf : wellFormed m) (hinv : modifiedAreDirty m) :
    wellFormed (stepOp m_store write_ok m op) ∧
      modifiedAreDirty (stepOp m_store write_ok m op) := by
  cases op with
  | write a v => exact ⟨(appWrite_inv m_store m a v hwf hinv).1,
      (appWrite_inv m_store m a v hwf hinv).2.1⟩
  | read a => exact ⟨(appRead_inv m_store m a hwf hinv).1,
      (appRead_inv m_store m a hwf hinv).2.1⟩
  | evict a => exact ⟨(evictPage_inv write_ok m a hwf hinv).1,
      (evictPage_inv write_ok m a hwf hinv).2.1⟩

theorem runOps_inv (m_store : Nat) (write_ok : Nat → Bool) (ops : List MapOp) :
    ∀ m : Mapping, wellFormed m → modifiedAreDirty m →
      wellFormed (runOps m_store write_ok ops m) ∧
        modifiedAreDirty (runOps m_store write_ok ops m) := by
  induction ops with
  | nil =>
    intro m hwf hinv
    exact ⟨hwf, hinv⟩
  | cons op rest ih =>
    intro m hwf hinv
    obtain ⟨h1, h2⟩ := stepOp_inv m_store write_ok m op hwf hinv
    exact ih (stepOp m_store write_ok m op) h1 h2

theorem flush_one_spec (write_ok : Nat → Bool) (m m1 : Mapping) (pd : Nat)
    (h : flush_one write_ok m pd = some m1) :
    m1.core = m.core ∧ m1.slots = m.slots ∧
      m1.buffer.present_index = m.buffer.present_index ∧
      (∀ q, (m1.buffer.descs q).page_addr = (m.buffer.descs q).page_addr) ∧
      (∀ q, (m1.buffer.descs q).dirty = true → (m.buffer.descs q).dirty = true) ∧
      (m1.buffer.descs pd).dirty = false ∧
      (∀ a, m.core a = m.store a → m1.store a = m.store a) ∧
      ((∀ a, m.core a ≠ m.store a →
          ∃ q ∈ m.slots, (m.buffer.descs q).dirty = true ∧ (m.buffer.descs q).page_addr = a) →
        ∀ a, m1.core a ≠ m1.store a →
          ∃ q ∈ m1.slots, (m1.buffer.descs q).dirty = true ∧
            (m1.buffer.descs q).page_addr = a) := by
  unfold flush_one at h
  cases hd : (m.buffer.descs pd).dirty
  · simp only [hd, Bool.false_eq_true, if_false, Option.some.injEq] at h
    subst h
    exact ⟨rfl, rfl, rfl, fun _ => rfl, fun _ hq => hq, hd, fun _ _ => rfl, fun hk => hk⟩
  · by_cases hw : write_ok (m.buffer.descs pd).page_addr = true
    · simp only [hd, hw, if_true, Option.some.injEq] at h
      subst h
      refine ⟨rfl, rfl, rfl, ?_, ?_, ?_, ?_, ?_⟩
      · intro q
        by_cases hq : q = pd
        · simp [Buffer.modify, hq]
        · simp [Buffer.modify, hq]
      · intro q hq
        by_cases hqp : q = pd
        · simp [Buffer.modify, hqp] at hq
        · simpa [Buffer.modify, hqp] using hq
      · simp [Buffer.modify]
      · intro a ha
        by_cases hap : a = (m.buffer.descs pd).page_addr
        · simp [hap] at ha ⊢
          exact ha
        · simp [hap]
      · intro hk a ha
        have hne : a ≠ (m.buffer.descs pd).page_addr := by
          intro heq
          simp [heq] at ha
        have ha2 : m.core a ≠ m.store a := by simpa [hne] using ha
        obtain ⟨q, hq, hqd, hqa⟩ := hk a ha2
        have hqp : q ≠ pd := by
          intro heq
          rw [heq] at hqa
          exact hne hqa.symm
        exact ⟨q, hq, by simp [Buffer.modify, hqp, hqd], by simp [Buffer.modify, hqp, hqa]⟩
    · simp [hd, hw] at h

theorem flush_pages_spec (write_ok : Nat → Bool) (l : List Nat) :
    ∀ m m1 : Mapping, flush_pages write_ok l m = some m1 →
      m1.core = m.core ∧ m1.slots = m.slots ∧
        m1.buffer.present_index = m.buffer.present_index ∧
        (∀ q, (m1.buffer.descs q).page_addr = (m.buffer.descs q).page_addr) ∧
        (∀ q, (m1.buffer.descs q).dirty = true → (m.buffer.descs q).dirty = true) ∧
        (∀ pd ∈ l, (m1.buffer.descs pd).dirty = false) ∧
        (∀ a, m.core a = m.store a → m1.store a = m.store a) ∧
        ((∀ a, m.core a ≠ m.store a →
            ∃ q ∈ m.slots, (m.buffer.descs q).dirty = true ∧
              (m.buffer.descs q).page_addr = a) →
          ∀ a, m1.core a ≠ m1.store a →
            ∃ q ∈ m1.slots, (m1.buffer.descs q).dirty = true ∧
              (m1.buffer.descs q).page_addr = a) := by
  induction l with
  | nil =>
    intro m m1 h
    simp only [flush_pages, Option.some.injEq] at h
    subst h
    exact ⟨rfl, rfl, rfl, fun _ => rfl, fun _ hq => hq, by simp, fun _ _ => rfl, fun hk => hk⟩
  | cons pd rest ih =>
    intro m m1 h
    unfold flush_pages at h
    cases h1 : flush_one write_ok m pd with
    | none => simp [h1] at h
    | some m2 =>
      rw [h1] at h
      obtain ⟨a1, a2, a3, a4, a5, a6, a7, a8⟩ := flush_one_spec write_ok m m2 pd h1
      obtain ⟨b1, b2, b3, b4, b5, b6, b7, b8⟩ := ih m2 m1 h
      refine ⟨b1.trans a1, b2.trans a2, b3.trans a3, fun q => (b4 q).trans (a4 q),
        fun q hq => a5 q (b5 q hq), ?_, ?_, fun hk => b8 (a8 hk)⟩
      · intro q hq
        rcases List.mem_cons.1 hq with hqp | hqr
        · subst hqp
          cases hd : (m1.buffer.descs q).dirty
          · rfl
          · have h2 := b5 q hd
            rw [a6] at h2
            cases h2
        · exact b6 q hqr
      · intro a ha
        have h2 := a7 a ha
        have h3 : m2.core a = m2.store a := by rw [a1, h2]; exact ha
        rw [b7 a h3, h2]

theorem flush_pages_total (write_ok : Nat → Bool) (hok : ∀ a, write_ok a = true)
    (l : List Nat) :
    ∀ m : Mapping, ∃ m1, flush_pages write_ok l m = some m1 := by
  induction l with
  | nil =>
    intro m
    exact ⟨m, rfl⟩
  | cons pd rest ih =>
    intro m
    have h1 : ∃ m2, flush_one write_ok m pd = some m2 := by
      unfold flush_one
      cases hd : (m.buffer.descs pd).dirty
      · simp
      · simp [hok]
    obtain ⟨m2, h2⟩ := h1
    obtain ⟨m1, h3⟩ := ih m2
    exact ⟨m1, by simp [flush_pages, h2, h3]⟩

theorem freshMapping_wellFormed (capacity low high : Nat) (store : Nat → Nat) :
    wellFormed (freshMapping capacity low high store) ∧
      ∀ a, (freshMapping capacity low high store).core a =
        (freshMapping capacity low high store).store a := by
  refine ⟨⟨?_, ?_, ?_⟩, fun _ => rfl⟩
  · intro a pd h
    simp [freshMapping] at h
  · intro pd h
    exact ⟨h, rfl⟩
  · exact List.nodup_range capacity

theorem modifiedAreDirty_of_sync (m : Mapping) (hsync : ∀ a, m.core a = m.store a) :
    modifiedAreDirty m := by
  intro a ha
  exact absurd (hsync a) ha

theorem faultPending_inv (m_store : Nat) (m : Mapping) (e : PageEvent)
    (hwf : wellFormed m) (hinv : modifiedAreDirty m) :
    wellFormed (faultPending m_store m e) ∧ modifiedAreDirty (faultPending m_store m e) ∧
      (faultPending m_store m e).core = m.core := by
  have hy := threshold_yield_quiet_buffer { buffer := m.buffer, trace := [], blocked := false }
  cases hidx : m.buffer.present_index e.aligned_page_address with
  | some pd =>
    by_cases hup : e.is_write_fault = true ∧ (m.buffer.descs pd).dirty = false
    · have hstep := processEvent_upgrade quietEnv m_store
        { buffer := m.buffer, trace := [], blocked := false } e pd rfl
        (by rw [hy]; exact hidx) hup.1 (by rw [hy]; exact hup.2)
      have happ : faultPending m_store m e =
          { m with
            buffer := (m.buffer.modify pd PageDescriptor.mark_page_dirty).modify pd
              PageDescriptor.set_state_updating } := by
        unfold faultPending
        rw [hstep, hy]
      rw [happ]
      obtain ⟨w1, w2, w3⟩ := hwf
      refine ⟨⟨?_, ?_, w3⟩, ?_, rfl⟩
      · intro x q hq
        obtain ⟨h1, h2, h3⟩ := w1 x q hq
        refine ⟨h1, ?_, h3⟩
        by_cases hqp : q = pd
        · simpa [Buffer.modify, hqp, PageDescriptor.mark_page_dirty,
            PageDescriptor.set_state_updating] using (hqp ▸ h2)
        · simpa [Buffer.modify, hqp] using h2
      · intro q hq
        have hqp : q ≠ pd := fun h => (w1 _ pd hidx).2.2 (h ▸ hq)
        refine ⟨(w2 q hq).1, ?_⟩
        simpa [Buffer.modify, hqp] using (w2 q hq).2
      · intro x hx
        obtain ⟨q, hq, hqd⟩ := hinv x hx
        refine ⟨q, hq, ?_⟩
        by_cases hqp : q = pd
        · simp [Buffer.modify, hqp, PageDescriptor.mark_page_dirty,
            PageDescriptor.set_state_updating]
        · simpa [Buffer.modify, hqp] using hqd
    · have hspur : e.is_write_fault = false ∨ (m.buffer.descs pd).dirty = true := by
        cases hw : e.is_write_fault
        · exact Or.inl rfl
        · cases hd : (m.buffer.descs pd).dirty
          · exact absurd ⟨hw, hd⟩ hup
          · exact Or.inr rfl
      have hstep := processEvent_spurious quietEnv m_store
        { buffer := m.buffer, trace := [], blocked := false } e pd rfl
        (by rw [hy]; exact hidx) (by rw [hy]; exact hspur)
      have happ : faultPending m_store m e = m := by
        unfold faultPending
        rw [hstep]
        show { m with buffer := (threshold_yield quietEnv _).buffer } = m
        rw [hy]
      rw [happ]
      exact ⟨hwf, hinv, rfl⟩
  | none =>
    cases hfl : m.buffer.free_list with
    | nil =>
      have hres2 : (threshold_yield quietEnv
          { buffer := m.buffer, trace := [], blocked := false }).buffer.present_index
            e.aligned_page_address = none := by
        rw [hy]; exact hidx
      have hfree2 : (threshold_yield quietEnv
          { buffer := m.buffer, trace := [], blocked := false }).buffer.free_list = [] := by
        rw [hy]; exact hfl
      have happ : faultPending m_store m e = m := by
        simp [faultPending, processEvent, classify, hres2, MgrState.call,
          Buffer.get_page_descriptor, hfree2, Buffer.page_already_present, hy, hidx, hfl]
      rw [happ]
      exact ⟨hwf, hinv, rfl⟩
    | cons pd rest =>
      have hstep := processEvent_alloc quietEnv m_store
        { buffer := m.buffer, trace := [], blocked := false } e pd rest rfl
        (by rw [hy]; exact hidx) (by rw [hy]; exact hfl)
      have h := faultService_alloc_inv m (faultPending m_store m e) e pd rest hwf hinv hidx hfl
        rfl rfl (fun _ => Or.inl rfl)
        (by unfold faultPending; rw [hstep, hy])
        (by unfold faultPending; rw [hstep])
        (by unfold faultPending; rw [hstep]; simp)
        (by unfold faultPending; rw [hstep, hy]; simp)
        (by
          intro q hq
          unfold faultPending
          rw [hstep, hy]
          simp [hq])
      exact ⟨h.1, h.2.1, h.2.2.1⟩

theorem appWrite_takes_effect (m_store : Nat) (m : Mapping) (a v : Nat)
    (hserved : m.buffer.present_index a ≠ none ∨ m.buffer.free_list ≠ []) :
    (appWrite m_store m a v).core a = v := by
  cases hidx : m.buffer.present_index a with
  | some pd =>
    cases hd : (m.buffer.descs pd).dirty
    · have hwr : writable m a = false := by simp [writable, hidx, hd]
      have hfs := faultService_upgrade m_store m ⟨a, true⟩ pd hidx rfl hd
      unfold appWrite
      simp only [hwr, Bool.false_eq_true, if_false, hfs, if_true]
    · have hwr : writable m a = true := by simp [writable, hidx, hd]
      unfold appWrite
      simp only [hwr, if_true]
  | none =>
    have hwr : writable m a = false := by simp [writable, hidx]
    cases hfl : m.buffer.free_list with
    | nil =>
      rcases hserved with h | h
      · exact absurd hidx h
      · exact absurd hfl h
    | cons pd rest =>
      obtain ⟨m1, hfs, _⟩ := faultService_alloc m_store m ⟨a, true⟩ pd rest hidx hfl
      unfold appWrite
      simp only [hwr, Bool.false_eq_true, if_false, hfs, if_true]

theorem umap_flush_sound (write_ok : Nat → Bool) (m : Mapping)
    (hwf : wellFormed m) (hinv : modifiedAreDirty m) :
    (∀ m1, umap_flush write_ok m = some m1 →
      (∀ a, m1.store a = m1.core a) ∧ m1.core = m.core ∧ m1.slots = m.slots ∧
        (∀ pd ∈ m1.slots, (m1.buffer.descs pd).dirty = false) ∧
        (∀ a pd, m1.buffer.present_index a = some pd → (m1.buffer.descs pd).dirty = false) ∧
        m1.buffer.present_index = m.buffer.present_index) ∧
      ((∀ a, write_ok a = true) → ∃ m1, umap_flush write_ok m = some m1) := by
  refine ⟨?_, fun hok => flush_pages_total write_ok hok m.slots m⟩
  intro m1 h
  obtain ⟨b1, b2, b3, b4, b5, b6, b7, b8⟩ := flush_pages_spec write_ok m.slots m m1 h
  have hk : ∀ a, m.core a ≠ m.store a →
      ∃ q ∈ m.slots, (m.buffer.descs q).dirty = true ∧ (m.buffer.descs q).page_addr = a := by
    intro a ha
    obtain ⟨pd, hpd, hd⟩ := hinv a ha
    exact ⟨pd, (hwf.1 a pd hpd).1, hd, (hwf.1 a pd hpd).2.1⟩
  have hclean : ∀ pd ∈ m1.slots, (m1.buffer.descs pd).dirty = false := by
    intro pd hpd
    rw [b2] at hpd
    exact b6 pd hpd
  refine ⟨?_, b1, b2, hclean, ?_, b3⟩
  · intro a
    by_contra hne
    obtain ⟨q, hq, hqd, _⟩ := b8 hk a (fun h => hne h.symm)
    rw [hclean q hq] at hqd
    cases hqd
  · intro a pd hpd
    rw [b3] at hpd
    exact hclean pd (by rw [b2]; exact (hwf.1 a pd hpd).1)

theorem runOps_append (m_store : Nat) (write_ok : Nat → Bool) (ops : List MapOp) (op : MapOp)
    (m : Mapping) :
    runOps m_store write_ok (ops ++ [op]) m =
      stepOp m_store write_ok (runOps m_store write_ok ops m) op := by
  simp [runOps, List.foldl_append]

theorem flush_pages_free_list (write_ok : Nat → Bool) (l : List Nat) :
    ∀ m m1 : Mapping, flush_pages write_ok l m = some m1 →
      m1.buffer.free_list = m.buffer.free_list := by
  induction l with
  | nil =>
    intro m m1 h
    simp only [flush_pages, Option.some.injEq] at h
    rw [← h]
  | cons pd rest ih =>
    intro m m1 h
    unfold flush_pages at h
    cases h1 : flush_one write_ok m pd with
    | none => simp [h1] at h
    | some m2 =>
      rw [h1] at h
      rw [ih m2 m1 h]
      unfold flush_one at h1
      cases hd : (m.buffer.descs pd).dirty
      · simp only [hd, Bool.false_eq_true, if_false, Option.some.injEq] at h1
        rw [← h1]
      · by_cases hw : write_ok (m.buffer.descs pd).page_addr = true
        · simp only [hd, hw, if_true, Option.some.injEq] at h1
          rw [← h1]
          rfl
        · simp [hd, hw] at h1

theorem umap_flush_wellFormed (write_ok : Nat → Bool) (m m1 : Mapping)
    (hwf : wellFormed m) (h : umap_flush write_ok m = some m1) :
    wellFormed m1 := by
  obtain ⟨b1, b2, b3, b4, b5, b6, b7, b8⟩ := flush_pages_spec write_ok m.slots m m1 h
  have hfl := flush_pages_free_list write_ok m.slots m m1 h
  obtain ⟨w1, w2, w3⟩ := hwf
  refine ⟨?_, ?_, ?_⟩
  · intro a pd hpd
    rw [b3] at hpd
    rw [b2, b4, hfl]
    exact w1 a pd hpd
  · intro pd hpd
    rw [hfl] at hpd
    rw [b2]
    refine ⟨(w2 pd hpd).1, ?_⟩
    cases hd : (m1.buffer.descs pd).dirty
    · rfl
    · have h2 := b5 pd hd
      rw [(w2 pd hpd).2] at h2
      cases h2
  · rw [hfl]
    exact w3

/-- C12: a mapped region starts in step with its store (`hsync`) on a buffer
whose bookkeeping is in order (`hwf`); the application writes and reads pages
and the flush workers evict pages, in any order (`ops`), every fault being
served by the coordinator's `processEvent` and the fill workers.  When
`umap_flush` then returns, the store holds at every page what the application
sees, the flush has not changed what the application sees, no descriptor of the
buffer is dirty (so no PRESENT one is), the resident pages are still resident,
and a page that is evicted and read again after the flush shows the same
content.  The same holds when the flush comes between the coordinator's step on
a fault and the fill worker's, the descriptor being FILLING or UPDATING.  With
a store that accepts every write the flush does return.  A write that is served
reaches the store: after it and a flush the store holds the written value. -/
theorem flush_writes_back (m_store : Nat) (write_ok : Nat → Bool) (m0 : Mapping)
    (ops : List MapOp) (hwf : wellFormed m0) (hsync : ∀ a, m0.core a = m0.store a) :
    (∀ m1, umap_flush write_ok (runOps m_store write_ok ops m0) = some m1 →
      (∀ a, m1.store a = m1.core a) ∧
        m1.core = (runOps m_store write_ok ops m0).core ∧
        (∀ pd ∈ m1.slots, (m1.buffer.descs pd).dirty = false) ∧
        (∀ a pd, m1.buffer.present_index a = some pd → (m1.buffer.descs pd).dirty = false) ∧
        m1.buffer.present_index = (runOps m_store write_ok ops m0).buffer.present_index ∧
        (∀ a, (appRead m_store (evictPage write_ok m1 a) a).core a =
          (runOps m_store write_ok ops m0).core a)) ∧
      (∀ e m1,
        umap_flush write_ok (faultPending m_store (runOps m_store write_ok ops m0) e) =
          some m1 →
        (∀ a, m1.store a = m1.core a) ∧
          m1.core = (runOps m_store write_ok ops m0).core ∧
          (∀ pd ∈ m1.slots, (m1.buffer.descs pd).dirty = false)) ∧
      ((∀ a, write_ok a = true) →
        (∃ m1, umap_flush write_ok (runOps m_store write_ok ops m0) = some m1) ∧
          ∀ e, ∃ m1,
            umap_flush write_ok (faultPending m_store (runOps m_store write_ok ops m0) e) =
              some m1) ∧
      (∀ a v m1,
        ((runOps m_store write_ok ops m0).buffer.present_index a ≠ none ∨
          (runOps m_store write_ok ops m0).buffer.free_list ≠ []) →
        umap_flush write_ok (runOps m_store write_ok (ops ++ [MapOp.write a v]) m0) =
          some m1 →
        m1.store a = v) := by
  have hinv0 := modifiedAreDirty_of_sync m0 hsync
  obtain ⟨r1, r2⟩ := runOps_inv m_store write_ok ops m0 hwf hinv0
  refine ⟨?_, ?_, ?_, ?_⟩
  · intro m1 h
    obtain ⟨f1, f2, f3, f4, f5, f6⟩ :=
      (umap_flush_sound write_ok (runOps m_store write_ok ops m0) r1 r2).1 m1 h
    refine ⟨f1, f2, f4, f5, f6, ?_⟩
    intro a
    have hwf1 := umap_flush_wellFormed write_ok _ m1 r1 h
    have hinv1 := modifiedAreDirty_of_sync m1 (fun x => (f1 x).symm)
    obtain ⟨e1, e2, _, e4⟩ := evictPage_inv write_ok m1 a hwf1 hinv1
    obtain ⟨_, _, _, _, a5⟩ := appRead_inv m_store (evictPage write_ok m1 a) a e1 e2
    rw [a5, e4, f2]
  · intro e m1 h
    obtain ⟨p1, p2, p3⟩ := faultPending_inv m_store (runOps m_store write_ok ops m0) e r1 r2
    obtain ⟨f1, f2, _, f4, _, _⟩ :=
      (umap_flush_sound write_ok (faultPending m_store (runOps m_store write_ok ops m0) e)
        p1 p2).1 m1 h
    exact ⟨f1, f2.trans p3, f4⟩
  · intro hok
    refine ⟨(umap_flush_sound write_ok (runOps m_store write_ok ops m0) r1 r2).2 hok, ?_⟩
    intro e
    obtain ⟨p1, p2, _⟩ := faultPending_inv m_store (runOps m_store write_ok ops m0) e r1 r2
    exact (umap_flush_sound write_ok _ p1 p2).2 hok
  · intro a v m1 hserved h
    rw [runOps_append] at h
    obtain ⟨s1, s2⟩ := stepOp_inv m_store write_ok (runOps m_store write_ok ops m0)
      (MapOp.write a v) r1 r2
    obtain ⟨f1, f2, _⟩ := (umap_flush_sound write_ok _ s1 s2).1 m1 h
    rw [f1 a, f2]
    exact appWrite_takes_effect m_store (runOps m_store write_ok ops m0) a v hserved

theorem flush_writes_back_witness :
    wellFormed sampleMapping ∧ (∀ a, sampleMapping.core a = sampleMapping.store a) ∧
      (umap_flush (fun _ => true)
        (runOps 7 (fun _ => true)
          [MapOp.write 8192 21, MapOp.write 12288 5, MapOp.read 4096, MapOp.evict 8192]
          sampleMapping)).map
        (fun m => (m.store 4096, m.store 8192, m.store 12288, m.core 12288,
          m.buffer.present_index 8192, m.buffer.present_index 12288,
          (m.buffer.descs 2).dirty)) =
        some (10, 21, 5, 5, none, some 2, false) ∧
      ∃ m1,
        umap_flush (fun _ => true)
          (runOps 7 (fun _ => true)
            [MapOp.write 8192 21, MapOp.write 12288 5, MapOp.read 4096, MapOp.evict 8192]
            sampleMapping) = some m1 ∧
        (∀ a, m1.store a = m1.core a) ∧
        (∀ pd ∈ m1.slots, (m1.buffer.descs pd).dirty = false) := by
  have hwf : wellFormed sampleMapping := by
    refine ⟨?_, ?_, ?_⟩
    · intro a pd h
      by_cases h0 : a = 4096
      · subst h0
        have hpd : pd = 0 := by simpa [sampleMapping, sampleBuffer] using h.symm
        subst hpd
        simp [sampleMapping, sampleBuffer]
      · by_cases h1 : a = 8192
        · subst h1
          have hpd : pd = 1 := by simpa [sampleMapping, sampleBuffer] using h.symm
          subst hpd
          simp [sampleMapping, sampleBuffer]
        · simp [sampleMapping, sampleBuffer, h0, h1] at h
    · intro pd h
      have h2 : pd = 2 ∨ pd = 3 := by simpa [sampleMapping, sampleBuffer] using h
      rcases h2 with h2 | h2 <;> subst h2 <;> simp [sampleMapping]
    · simp [sampleMapping, sampleBuffer]
  have h := flush_writes_back 7 (fun _ => true) sampleMapping
    [MapOp.write 8192 21, MapOp.write 12288 5, MapOp.read 4096, MapOp.evict 8192]
    hwf (fun _ => rfl)
  obtain ⟨m1, hm1⟩ := (h.2.2.1 (fun _ => rfl)).1
  exact ⟨hwf, fun _ => rfl, rfl, m1, hm1, (h.1 m1 hm1).1, (h.1 m1 hm1).2.2.1⟩

end Umap
